import Mathlib

/-!
# Verification of the HealthMonitor metric storage, health aggregation and alerting layer

Shallow embedding of `src/metrics/collector.py` (hour-bucket CSV store:
`MetricStorage.store`, `MetricStorage._csv_line_to_metric`,
`JsonMetricStorage.query` / `get_latest` / `get_health_timeline` /
`get_health_summary`, `ClickHouseStatusCollector.collect`) and of
`src/alerts/manager.py` (`AlertRule.evaluate`, `AlertRule.should_trigger`,
`AlertManager.evaluate_metric`, `AlertManager.get_alert_history`).

Modelling conventions:
* Python `datetime` values are a 7-field structure of naturals; comparison is
  modelled by a single monotone numeric key, which agrees with Python's
  field-lexicographic comparison on all *valid* datetimes (the only ones the
  Python runtime can construct).
* The file system is a function from structured bucket paths to optional file
  contents; a file is either a list of text lines or `unreadable` (an open()
  that raises IOError).
* Fallible Python code returns `Option`/`Except`; a `ValueError` escaping a
  function is `Except.error .valueError`.
* Metric values are modelled as integers (the code's `int(value_str)` branch);
  the `float` branch of `_csv_line_to_metric` is not modelled, so strings
  containing `'.'` are treated as unparseable.  All health metrics in this
  system are the integers 0/1.
-/

namespace HealthMonitor

/-! ## Python string primitives -/

/-- Whitespace characters removed by Python `str.strip()` (ASCII subset):
space, tab, newline, carriage return, vertical tab, form feed. -/
def pyIsWs (c : Char) : Bool :=
  c.toNat = 32 || c.toNat = 9 || c.toNat = 10 || c.toNat = 13 ||
    c.toNat = 11 || c.toNat = 12

/-- Python `str.strip()` on a character list. -/
def pyStripList (l : List Char) : List Char :=
  ((l.dropWhile pyIsWs).reverse.dropWhile pyIsWs).reverse

/-- Python `str.strip()`. -/
def pyStrip (s : String) : String :=
  String.mk (pyStripList s.data)

/-- Split a character list at the first occurrence of `c`, if any. -/
def splitOnceCh (c : Char) : List Char → Option (List Char × List Char)
  | [] => none
  | x :: xs =>
    if x = c then some ([], xs)
    else match splitOnceCh c xs with
      | none => none
      | some (a, b) => some (x :: a, b)

/-- Python `s.split(',', 2)`: split at the first two commas, keeping the rest
intact.  Always returns between one and three pieces. -/
def pySplit2 (s : String) : List String :=
  match splitOnceCh ',' s.data with
  | none => [s]
  | some (a, rest) =>
    match splitOnceCh ',' rest with
    | none => [String.mk a, String.mk rest]
    | some (b, c) => [String.mk a, String.mk b, String.mk c]

/-- Numeric value of a decimal digit character. -/
def digitVal (c : Char) : Nat := c.toNat - 48

def isDigitCh (c : Char) : Bool := 48 ≤ c.toNat && c.toNat ≤ 57

/-- Decimal digit character for `d < 10` (total, with an arbitrary digit
default that is never reached from in-range inputs). -/
def digitChar10 : Nat → Char
  | 0 => '0' | 1 => '1' | 2 => '2' | 3 => '3' | 4 => '4'
  | 5 => '5' | 6 => '6' | 7 => '7' | 8 => '8' | 9 => '9'
  | _ => '0'

/-- Decimal rendering, fuel-bounded so that it reduces structurally; the
fuel `n + 1` used by `natRepr` always suffices (`natRepr_spec`). -/
def natReprAux : Nat → Nat → List Char
  | 0, _ => []
  | fuel + 1, n =>
    if n < 10 then [digitChar10 n]
    else natReprAux fuel (n / 10) ++ [digitChar10 (n % 10)]

/-- Decimal rendering of a natural number (Python `str` on a non-negative int). -/
def natRepr (n : Nat) : List Char := natReprAux (n + 1) n

/-- Python `str` of an int. -/
def pyIntRepr (v : Int) : String :=
  if v < 0 then String.mk ('-' :: natRepr v.natAbs) else String.mk (natRepr v.natAbs)

/-- Value of a digit string, `foldl`-style. -/
def digitsVal (l : List Char) : Nat :=
  l.foldl (fun a c => a * 10 + digitVal c) 0

/-- Parse a non-empty all-digit character list. -/
def parseDigits (l : List Char) : Option Nat :=
  if l ≠ [] && l.all isDigitCh then some (digitsVal l) else none

/-- Python `int(s)`: optional surrounding whitespace, optional sign, decimal
digits.  (Underscore separators and non-ASCII digits are not modelled.) -/
def pyParseInt (s : String) : Option Int :=
  match pyStripList s.data with
  | [] => none
  | c :: rest =>
    if c = '-' then (parseDigits rest).map (fun n => -(n : Int))
    else if c = '+' then (parseDigits rest).map (fun n => (n : Int))
    else (parseDigits (c :: rest)).map (fun n => (n : Int))

/-! ## Python `datetime` model -/

/-- A Python `datetime.datetime` (naive, UTC by convention in this codebase). -/
structure DateTime where
  year : Nat
  month : Nat
  day : Nat
  hour : Nat
  minute : Nat
  second : Nat
  microsecond : Nat
deriving DecidableEq, Repr

/-- Gregorian leap-year rule, as implemented by Python's `datetime`. -/
def isLeap (y : Nat) : Bool :=
  y % 4 = 0 && (y % 100 ≠ 0 || y % 400 = 0)

/-- Days in a month, as validated by Python's `datetime` constructor. -/
def daysInMonth (y m : Nat) : Nat :=
  if m = 2 then (if isLeap y then 29 else 28)
  else if m = 4 || m = 6 || m = 9 || m = 11 then 30
  else 31

/-- The field ranges Python's `datetime` constructor (hence `replace` and
`fromisoformat`) enforces. -/
def validDT (t : DateTime) : Prop :=
  1 ≤ t.year ∧ t.year ≤ 9999 ∧ 1 ≤ t.month ∧ t.month ≤ 12 ∧
  1 ≤ t.day ∧ t.day ≤ daysInMonth t.year t.month ∧
  t.hour ≤ 23 ∧ t.minute ≤ 59 ∧ t.second ≤ 59 ∧ t.microsecond ≤ 999999

instance (t : DateTime) : Decidable (validDT t) := by
  unfold validDT; infer_instance

/-- Monotone numeric key.  On valid datetimes (`month ≤ 12 < 13`, `day ≤ 31 <
32`, …) ordering the keys is the same as Python's field-lexicographic
comparison of datetimes. -/
def dtKey (t : DateTime) : Nat :=
  (((((t.year * 13 + t.month) * 32 + t.day) * 24 + t.hour) * 60 + t.minute)
      * 60 + t.second) * 1000000 + t.microsecond

/-- Python `<=` on datetimes (via the key; see `dtKey`). -/
def dtLe (a b : DateTime) : Prop := dtKey a ≤ dtKey b

instance (a b : DateTime) : Decidable (dtLe a b) := by
  unfold dtLe; infer_instance

/-- Fixed-width two-digit decimal field (`%02d` for values below 100). -/
def pad2 (n : Nat) : List Char := [digitChar10 (n / 10), digitChar10 (n % 10)]

/-- Fixed-width four-digit decimal field (`%04d` for values below 10000). -/
def pad4 (n : Nat) : List Char :=
  [digitChar10 (n / 1000), digitChar10 (n / 100 % 10),
   digitChar10 (n / 10 % 10), digitChar10 (n % 10)]

/-- Fixed-width six-digit decimal field (`%06d` for values below 1000000). -/
def pad6 (n : Nat) : List Char :=
  [digitChar10 (n / 100000), digitChar10 (n / 10000 % 10),
   digitChar10 (n / 1000 % 10), digitChar10 (n / 100 % 10),
   digitChar10 (n / 10 % 10), digitChar10 (n % 10)]

/-- Python `datetime.isoformat()`: `YYYY-MM-DDTHH:MM:SS` with a `.ffffff`
suffix exactly when the microsecond field is non-zero. -/
def isoFormat (t : DateTime) : String :=
  String.mk (pad4 t.year ++ '-' :: pad2 t.month ++ '-' :: pad2 t.day ++
    'T' :: pad2 t.hour ++ ':' :: pad2 t.minute ++ ':' :: pad2 t.second ++
    (if t.microsecond = 0 then [] else '.' :: pad6 t.microsecond))

/-- Helper: read a fixed run of digit characters. -/
def isDigits (l : List Char) : Bool := l.all isDigitCh

/-- Read a two-digit field. -/
def read2 : List Char → Option (Nat × List Char)
  | a :: b :: rest =>
    if isDigits [a, b] then some (digitVal a * 10 + digitVal b, rest) else none
  | _ => none

/-- Read a four-digit field. -/
def read4 : List Char → Option (Nat × List Char)
  | a :: b :: c :: d :: rest =>
    if isDigits [a, b, c, d] then some (digitsVal [a, b, c, d], rest) else none
  | _ => none

/-- Consume one expected separator character. -/
def expectCh (c : Char) : List Char → Option (List Char)
  | x :: rest => if x = c then some rest else none
  | _ => none

/-- Read the optional `.ffffff` microsecond suffix (empty ⇒ 0). -/
def readFrac : List Char → Option Nat
  | [] => some 0
  | x :: rest =>
    if x = '.' && rest.length = 6 && isDigits rest then some (digitsVal rest)
    else none

/-- Python `datetime.fromisoformat` on the strings this system produces:
`YYYY-MM-DDTHH:MM:SS` optionally followed by `.ffffff`, with the constructor's
range validation.  Anything else is a `ValueError` (`none`). -/
def fromIso (s : String) : Option DateTime := do
  let (y, r1) ← read4 s.data
  let r2 ← expectCh '-' r1
  let (mo, r3) ← read2 r2
  let r4 ← expectCh '-' r3
  let (d, r5) ← read2 r4
  let r6 ← expectCh 'T' r5
  let (h, r7) ← read2 r6
  let r8 ← expectCh ':' r7
  let (mi, r9) ← read2 r8
  let r10 ← expectCh ':' r9
  let (ss, r11) ← read2 r10
  let us ← readFrac r11
  let t : DateTime := ⟨y, mo, d, h, mi, ss, us⟩
  if validDT t then some t else none

/-! ## Data model: `MetricValue` and the on-disk record dictionary -/

/-- `MetricValue` (dataclass).  `value` is modelled as an integer (see header);
`tags` is omitted as no modelled code reads it. -/
structure MetricValue where
  metric_id : String
  metric_name : String
  value : Int
  timestamp : String
  node_name : String
  cluster_name : String
  unit : String := ""
deriving DecidableEq, Repr

/-- The dictionary `_csv_line_to_metric` returns for one parsed line. -/
structure RecOut where
  metric_name : String
  timestamp : String
  value : Int
  node_name : String
  cluster_name : String
deriving DecidableEq, Repr

/-! ## File-system model -/

/-- Hour-bucket path `base_dir/cluster_name/node_name/YYYY/MM/DD/HH.log`,
kept structured (the strftime fields are fixed-width, so distinct field tuples
give distinct path strings for a fixed cluster/node). -/
structure BucketPath where
  cluster : String
  node : String
  year : Nat
  month : Nat
  day : Nat
  hour : Nat
deriving DecidableEq, Repr

/-- A file is a list of text lines, or unreadable (`open` raises `IOError`). -/
inductive FileContent where
  | lines (ls : List String)
  | unreadable
deriving DecidableEq, Repr

/-- The file system under `base_dir`: path exists iff lookup is `some`. -/
def FS : Type := BucketPath → Option FileContent

def FS.empty : FS := fun _ => none

def FS.update (fs : FS) (p : BucketPath) (c : FileContent) : FS :=
  fun q => if q = p then some c else fs q

/-- `_get_file_path` / `_get_query_file_path`: both render
`cluster/node/%Y/%m/%d/%H.log` from the datetime's fields. -/
def bucketPath (cluster node : String) (t : DateTime) : BucketPath :=
  ⟨cluster, node, t.year, t.month, t.day, t.hour⟩

/-! ## `MetricStorage`: CSV serialization and `store` -/

/-- `MetricStorage.CSV_HEADER`. -/
def CSV_HEADER : String := "# metric_name,timestamp,value"

/-- `MetricStorage._metric_to_csv_line`:
`f"{metric.metric_name},{metric.timestamp},{metric.value}"`. -/
def metric_to_csv_line (m : MetricValue) : String :=
  m.metric_name ++ "," ++ m.timestamp ++ "," ++ pyIntRepr m.value

/-- `MetricStorage._csv_line_to_metric`.  Strips the line, skips blanks and
`#` comments, splits at the first two commas, and parses the value.  The
`float(value_str)` branch (strings containing `'.'`) is not modelled, so such
lines come out as `none`. -/
def csv_line_to_metric (line : String) (cluster_name node_name : String) :
    Option RecOut :=
  let l := pyStrip line
  if l.data = [] || l.data.head? = some '#' then none
  else
    match pySplit2 l with
    | [p0, p1, p2] =>
      if p2.data.contains '.' then none
      else
        match pyParseInt p2 with
        | none => none
        | some v =>
          some { metric_name := p0, timestamp := p1, value := v,
                 node_name := node_name, cluster_name := cluster_name }
    | _ => none

/-- `MetricStorage.store`: parse the timestamp, compute the bucket path, and
append one CSV line (writing the header first when the file does not exist
yet).  `none` models a raised exception (`ValueError` from `fromisoformat`, or
`IOError` appending to an unreadable file). -/
def MetricStorage.store (fs : FS) (m : MetricValue) : Option FS :=
  match fromIso m.timestamp with
  | none => none
  | some t =>
    let p := bucketPath m.cluster_name m.node_name t
    match fs p with
    | none => some (fs.update p (.lines [CSV_HEADER, metric_to_csv_line m]))
    | some (.lines ls) => some (fs.update p (.lines (ls ++ [metric_to_csv_line m])))
    | some .unreadable => none

/-- `MetricStorage.store_batch`: `store` each metric in order. -/
def MetricStorage.store_batch (fs : FS) (ms : List MetricValue) : Option FS :=
  ms.foldlM MetricStorage.store fs

/-! ## `JsonMetricStorage.query` -/

/-- Exceptions that can escape `query` in the model.  `fuelOut` is an artifact
of the bounded loop below and is unreachable from any valid start datetime
(the hour index `day * 24 + hour` of a valid datetime is below 767 and
strictly increases each iteration, and the day rollover fails at month end). -/
inductive QErr where
  | valueError
  | fuelOut
deriving DecidableEq, Repr

/-- `start_time.replace(minute=0, second=0, microsecond=0)`. -/
def floorHour (t : DateTime) : DateTime :=
  { t with minute := 0, second := 0, microsecond := 0 }

/-- `start_time <= m_time <= end_time` and the optional metric-name filter. -/
def keepRecord (start_time end_time : DateTime) (mn : Option String)
    (r : RecOut) (mt : DateTime) : Bool :=
  decide (dtLe start_time mt) && decide (dtLe mt end_time) &&
    (match mn with
     | none => true
     | some n => decide (r.metric_name = n))

/-- The per-line body of `query`'s file loop: skip lines `_csv_line_to_metric`
rejects; `datetime.fromisoformat(m['timestamp'])` raises `ValueError` (only
`IOError` is caught); keep parsed records in range with a matching name. -/
def processLines (cluster node : String) (start_time end_time : DateTime)
    (mn : Option String) : List String → Except QErr (List RecOut)
  | [] => .ok []
  | line :: rest =>
    match csv_line_to_metric line cluster node with
    | none => processLines cluster node start_time end_time mn rest
    | some r =>
      match fromIso r.timestamp with
      | none => .error .valueError
      | some mt =>
        match processLines cluster node start_time end_time mn rest with
        | .error e => .error e
        | .ok rs => .ok (if keepRecord start_time end_time mn r mt then r :: rs else rs)

/-- One hour bucket of `query`: missing file ⇒ empty; `IOError` opening the
file is caught (`except IOError: pass`) ⇒ empty; otherwise scan the lines. -/
def readBucket (fs : FS) (cluster node : String) (start_time end_time : DateTime)
    (mn : Option String) (current : DateTime) : Except QErr (List RecOut) :=
  match fs (bucketPath cluster node current) with
  | none => .ok []
  | some .unreadable => .ok []
  | some (.lines ls) => processLines cluster node start_time end_time mn ls

/-- The `while current <= end_time` loop of `query`.  The hour step is
`current.replace(hour=current.hour + 1)` below hour 23 and otherwise
`current.replace(day=current.day + 1, hour=0)`, which raises `ValueError`
when `day + 1` exceeds the month length.  The fuel bound is discussed at
`QErr.fuelOut`. -/
def queryLoop (fs : FS) (cluster node : String) (start_time end_time : DateTime)
    (mn : Option String) : Nat → DateTime → Except QErr (List RecOut)
  | 0, _ => .error .fuelOut
  | fuel + 1, current =>
    if dtLe current end_time then
      match readBucket fs cluster node start_time end_time mn current with
      | .error e => .error e
      | .ok recs =>
        if current.hour < 23 then
          match queryLoop fs cluster node start_time end_time mn fuel
              { current with hour := current.hour + 1 } with
          | .error e => .error e
          | .ok rest => .ok (recs ++ rest)
        else if current.day + 1 ≤ daysInMonth current.year current.month then
          match queryLoop fs cluster node start_time end_time mn fuel
              { current with day := current.day + 1, hour := 0 } with
          | .error e => .error e
          | .ok rest => .ok (recs ++ rest)
        else .error .valueError
    else .ok []

/-- `sorted(results, key=lambda x: x['timestamp'])`: ascending, stable. -/
def tsLe (a b : RecOut) : Prop := a.timestamp ≤ b.timestamp

instance : DecidableRel tsLe := fun a b =>
  inferInstanceAs (Decidable (a.timestamp ≤ b.timestamp))

/-- Fuel strictly above the 744 + 1 iterations any in-month hour walk can take. -/
def queryFuel : Nat := 768

/-- `JsonMetricStorage.query` (with `MetricStorage._csv_line_to_metric` as the
line parser, as the callers and tests use the combined storage class). -/
def JsonMetricStorage.query (fs : FS) (cluster_name node_name : String)
    (start_time end_time : DateTime) (metric_name : Option String) :
    Except QErr (List RecOut) :=
  match queryLoop fs cluster_name node_name start_time end_time metric_name
      queryFuel (floorHour start_time) with
  | .error e => .error e
  | .ok results => .ok (List.insertionSort tsLe results)

/-- `JsonMetricStorage.get_latest`: query the current UTC hour
`[floor(now), now]`; if that returns no rows, query `[previous hour,
floor(now)]`.  `now.replace(day=now.day - 1, hour=23)` raises `ValueError` on
day 1 (day 0 is invalid). -/
def JsonMetricStorage.get_latest (fs : FS) (cluster_name node_name : String)
    (metric_name : Option String) (now : DateTime) : Except QErr (List RecOut) :=
  let start_time := floorHour now
  match JsonMetricStorage.query fs cluster_name node_name start_time now metric_name with
  | .error e => .error e
  | .ok metrics =>
    if metrics = [] then
      let prev? : Option DateTime :=
        if 0 < start_time.hour then some { start_time with hour := start_time.hour - 1 }
        else if 1 ≤ start_time.day - 1 then
          some { start_time with day := start_time.day - 1, hour := 23 }
        else none
      match prev? with
      | none => .error .valueError
      | some prev_hour =>
        JsonMetricStorage.query fs cluster_name node_name prev_hour start_time metric_name
    else .ok metrics

/-! ## Health timeline and summary -/

/-- One entry of `get_health_timeline`'s result. -/
structure TimelineEntry where
  timestamp : String
  status : Int
  status_text : String
  changed : Bool
  change_type : Option String
deriving DecidableEq, Repr

/-- The `for m in metrics` loop of `get_health_timeline`, carrying
`prev_status` (initially `None`).  `changed = prev_status is not None and
status != prev_status`; `change_type` is `'恢复'` ("recovered") on a change to
status 1 and `'故障'` ("failed") on a change to any other status. -/
def timelineLoop : Option Int → List RecOut → List TimelineEntry
  | _, [] => []
  | prev_status, m :: rest =>
    let status := m.value
    let changed : Bool :=
      match prev_status with
      | none => false
      | some p => decide (status ≠ p)
    { timestamp := m.timestamp, status := status,
      status_text := if status = 1 then "健康" else "离线",
      changed := changed,
      change_type :=
        if changed then some (if status = 1 then "恢复" else "故障") else none } ::
      timelineLoop (some status) rest

/-- `JsonMetricStorage.get_health_timeline`: query `clickhouse_status` records
and fold them into a timeline. -/
def JsonMetricStorage.get_health_timeline (fs : FS) (cluster_name node_name : String)
    (start_time end_time : DateTime) : Except QErr (List TimelineEntry) :=
  (JsonMetricStorage.query fs cluster_name node_name start_time end_time
      (some "clickhouse_status")).map (timelineLoop none)

/-- Result dictionary of `get_health_summary`.  The empty-timeline branch of
the source omits the `first_check`/`last_check` keys; both are `none` there. -/
structure HealthSummary where
  node_name : String
  cluster_name : String
  total_checks : Nat
  healthy_count : Nat
  unhealthy_count : Nat
  availability_percent : ℚ
  status_changes : List TimelineEntry
  current_status : Option String
  first_check : Option String
  last_check : Option String
deriving DecidableEq, Repr

/-- Round-half-to-even on rationals (Python's `round` tie rule). -/
def roundHalfEven (q : ℚ) : ℤ :=
  if q - ⌊q⌋ < 1 / 2 then ⌊q⌋
  else if 1 / 2 < q - ⌊q⌋ then ⌊q⌋ + 1
  else if ⌊q⌋ % 2 = 0 then ⌊q⌋ else ⌊q⌋ + 1

/-- Python `round(x, 2)` idealized over exact rationals. -/
def pyRound2 (q : ℚ) : ℚ := (roundHalfEven (q * 100) : ℚ) / 100

/-- The summary computation of `get_health_summary` over an already-built
timeline (lines 580–609 of `collector.py`). -/
def summarizeTimeline (node_name cluster_name : String)
    (timeline : List TimelineEntry) : HealthSummary :=
  if timeline = [] then
    { node_name := node_name, cluster_name := cluster_name, total_checks := 0,
      healthy_count := 0, unhealthy_count := 0, availability_percent := 0,
      status_changes := [], current_status := none,
      first_check := none, last_check := none }
  else
    let healthy_count := (timeline.filter (fun t => t.status = 1)).length
    { node_name := node_name, cluster_name := cluster_name,
      total_checks := timeline.length,
      healthy_count := healthy_count,
      unhealthy_count := timeline.length - healthy_count,
      availability_percent :=
        if timeline ≠ [] then
          pyRound2 ((healthy_count : ℚ) / (timeline.length : ℚ) * 100)
        else 0,
      status_changes := timeline.filter (fun t => t.changed),
      current_status := if timeline ≠ [] then (timeline.getLast?).map (·.status_text) else none,
      first_check := if timeline ≠ [] then (timeline.head?).map (·.timestamp) else none,
      last_check := if timeline ≠ [] then (timeline.getLast?).map (·.timestamp) else none }

/-- `JsonMetricStorage.get_health_summary`. -/
def JsonMetricStorage.get_health_summary (fs : FS) (cluster_name node_name : String)
    (start_time end_time : DateTime) : Except QErr HealthSummary :=
  (JsonMetricStorage.get_health_timeline fs cluster_name node_name start_time
      end_time).map (summarizeTimeline node_name cluster_name)

/-! ## `ClickHouseStatusCollector.collect` -/

/-- Outcome of `requests.get(url, timeout=...)`: a response with a status code
and body text, or any raised exception (timeout, connection failure, …). -/
inductive ProbeOutcome where
  | response (status_code : Nat) (text : String)
  | exn
deriving DecidableEq, Repr

/-- `ClickHouseStatusCollector.collect`: status is 1 iff the probe returned
HTTP 200 with stripped body `"Ok."`; any exception yields 0.  `_create_metric`
fills the identifying fields; the fresh `uuid4` and `utcnow().isoformat()` are
passed in as parameters. -/
def ClickHouseStatusCollector.collect (outcome : ProbeOutcome)
    (node_name cluster_name : String) (metric_id nowIso : String) : MetricValue :=
  let status : Int :=
    match outcome with
    | .response code text => if code = 200 && pyStrip text = "Ok." then 1 else 0
    | .exn => 0
  { metric_id := metric_id, metric_name := "clickhouse_status", value := status,
    timestamp := nowIso, node_name := node_name, cluster_name := cluster_name,
    unit := "" }

/-! ## Alert manager -/

/-- Behaviour of one `AlertAction.execute` call: returns a success flag, or
raises. -/
inductive ActionOutcome where
  | succeeded
  | failed
  | raised
deriving DecidableEq, Repr

/-- A configured alert action, identified by `id`; `outcome` is what its
`execute(alert)` does when invoked. -/
structure AlertAction where
  id : String
  outcome : ActionOutcome
deriving DecidableEq, Repr

/-- `execute(alert) -> bool`, with `Except.error` for a raised exception. -/
def AlertAction.execute (a : AlertAction) : Except Unit Bool :=
  match a.outcome with
  | .succeeded => .ok true
  | .failed => .ok false
  | .raised => .error ()

/-- `AlertRule` (dataclass).  Numeric values are exact rationals; wall-clock
instants are rationals in seconds; `_last_triggered` maps a node key to the
instant of the last firing. -/
structure AlertRule where
  name : String
  metric : String
  operator : String
  threshold : ℚ
  severity : String
  actions : List AlertAction
  enabled : Bool
  cooldown_seconds : Int
  last_triggered : String → Option ℚ

/-- `AlertRule.evaluate`: look the operator up; an unknown operator means the
rule never matches (`operators.get` returns `None` and the method returns
`False`). -/
def AlertRule.evaluate (rule : AlertRule) (metric_value : ℚ) : Bool :=
  match rule.operator with
  | ">" => decide (metric_value > rule.threshold)
  | "<" => decide (metric_value < rule.threshold)
  | ">=" => decide (metric_value ≥ rule.threshold)
  | "<=" => decide (metric_value ≤ rule.threshold)
  | "==" => decide (metric_value = rule.threshold)
  | "!=" => decide (metric_value ≠ rule.threshold)
  | _ => false

/-- `AlertRule.should_trigger`: disabled rules never trigger; otherwise
trigger when never fired for this node key or when at least
`cooldown_seconds` have elapsed. -/
def AlertRule.should_trigger (rule : AlertRule) (node_key : String) (now : ℚ) : Bool :=
  if !rule.enabled then false
  else
    match rule.last_triggered node_key with
    | none => true
    | some last => decide (now - last ≥ (rule.cooldown_seconds : ℚ))

/-- `AlertRule.mark_triggered`. -/
def AlertRule.mark_triggered (rule : AlertRule) (node_key : String) (now : ℚ) : AlertRule :=
  { rule with
    last_triggered := fun k => if k = node_key then some now else rule.last_triggered k }

/-- `AlertEvent` (dataclass); `timestamp` is the `utcnow()` instant of the
evaluation call. -/
structure AlertEvent where
  alert_id : String
  rule_name : String
  metric_name : String
  node_name : String
  cluster_name : String
  current_value : ℚ
  threshold : ℚ
  operator : String
  severity : String
  timestamp : ℚ
  message : String
deriving DecidableEq, Repr

/-- The `AlertEvent(...)` construction in `evaluate_metric`. -/
def mkAlertEvent (rule : AlertRule) (metric_name : String) (metric_value : ℚ)
    (node_name cluster_name node_key : String) (now : ℚ) : AlertEvent :=
  { alert_id := rule.name ++ "-" ++ node_key ++ "-" ++ toString now,
    rule_name := rule.name, metric_name := metric_name, node_name := node_name,
    cluster_name := cluster_name, current_value := metric_value,
    threshold := rule.threshold, operator := rule.operator,
    severity := rule.severity, timestamp := now,
    message := "Alert: " ++ metric_name ++ " = " ++ toString metric_value ++ " "
      ++ rule.operator ++ " " ++ toString rule.threshold }

/-- The `for action in rule.actions` loop: every action is invoked; a raised
exception is caught (`except Exception: logger.error(...)`) and the loop
continues.  Returns the ids of the invoked actions, in order. -/
def runActions (alert : AlertEvent) : List AlertAction → List String
  | [] => []
  | a :: rest =>
    match a.execute with
    | .ok _ => a.id :: runActions alert rest
    | .error _ => a.id :: runActions alert rest

/-- The `for rule in self._rules.values()` loop of `evaluate_metric`: returns
the updated rules, the fired events (in rule order) and the invoked action
ids (in invocation order). -/
def evalRules (metric_name : String) (metric_value : ℚ)
    (node_name cluster_name node_key : String) (now : ℚ) :
    List AlertRule → List AlertRule × List AlertEvent × List String
  | [] => ([], [], [])
  | rule :: rest =>
    if rule.metric ≠ metric_name ∨ rule.evaluate metric_value = false
        ∨ rule.should_trigger node_key now = false then
      let (rs, evs, acts) :=
        evalRules metric_name metric_value node_name cluster_name node_key now rest
      (rule :: rs, evs, acts)
    else
      let alert := mkAlertEvent rule metric_name metric_value node_name
        cluster_name node_key now
      let acts0 := runActions alert rule.actions
      let rule' := rule.mark_triggered node_key now
      let (rs, evs, acts) :=
        evalRules metric_name metric_value node_name cluster_name node_key now rest
      (rule' :: rs, alert :: evs, acts0 ++ acts)

/-- `AlertManager`: rules in insertion order (`dict.values()` order) and the
append-only alert history. -/
structure AlertManager where
  rules : List AlertRule
  alert_history : List AlertEvent

/-- `AlertManager.evaluate_metric`: evaluate all rules, append fired events to
the history, and return them (plus the trace of invoked action ids). -/
def AlertManager.evaluate_metric (mgr : AlertManager) (metric_name : String)
    (metric_value : ℚ) (node_name cluster_name : String) (now : ℚ) :
    AlertManager × List AlertEvent × List String :=
  let node_key := cluster_name ++ "/" ++ node_name
  let (rs, evs, acts) :=
    evalRules metric_name metric_value node_name cluster_name node_key now mgr.rules
  ({ rules := rs, alert_history := mgr.alert_history ++ evs }, evs, acts)

/-- Python `lst[-limit:]` for a non-negative `limit`. -/
def pyTailSlice {α : Type} (l : List α) (limit : Nat) : List α :=
  if limit = 0 then l else l.drop (l.length - limit)

/-- `AlertManager.get_alert_history`. -/
def AlertManager.get_alert_history (mgr : AlertManager) (limit : Nat) : List AlertEvent :=
  pyTailSlice mgr.alert_history limit

/-! ## Specification-side descriptions used in the theorem statements

These re-describe what the query layer should return in direct,
loop-free terms (hour enumeration as a `List.range'`, per-bucket parsing as a
`filterMap`, filtering as a `List.filter`), to be compared with the
implementation functions above. -/

/-- Index of a datetime's hour within its month (`day * 24 + hour`). -/
def hourIdx (t : DateTime) : Nat := t.day * 24 + t.hour

/-- The whole-hour datetime of month-hour-index `i` in month `(y, m)`. -/
def idxToDT (y m i : Nat) : DateTime :=
  ⟨y, m, i / 24, i % 24, 0, 0, 0⟩

/-- Month-hour indices of the hour buckets whose range intersects
`[start_time, end_time]` (both in the same month). -/
def hourRange (start_time end_time : DateTime) : List Nat :=
  List.range' (hourIdx start_time) (hourIdx end_time + 1 - hourIdx start_time)

/-- The text lines of one bucket file (empty for a missing or unreadable file). -/
def bucketLines (fs : FS) (cluster node : String) (t : DateTime) : List String :=
  match fs (bucketPath cluster node t) with
  | some (.lines ls) => ls
  | _ => []

/-- All records `_csv_line_to_metric` can parse out of one bucket file. -/
def bucketParsed (fs : FS) (cluster node : String) (t : DateTime) : List RecOut :=
  (bucketLines fs cluster node t).filterMap
    (fun line => csv_line_to_metric line cluster node)

/-- A parsed record whose timestamp parses, lies in `[start_time, end_time]`
and whose metric name passes the optional filter. -/
def recInRange (start_time end_time : DateTime) (mn : Option String)
    (r : RecOut) : Bool :=
  match fromIso r.timestamp with
  | none => false
  | some mt => keepRecord start_time end_time mn r mt

/-- Spec-side query result, unsorted: for each hour bucket intersecting the
range, the parsed records that pass the filters, in file order. -/
def specCollect (fs : FS) (cluster node : String)
    (start_time end_time : DateTime) (mn : Option String) : List RecOut :=
  ((hourRange start_time end_time).map (idxToDT start_time.year start_time.month)).flatMap
    (fun t => (bucketParsed fs cluster node t).filter (recInRange start_time end_time mn))

/-- The record dictionary `query` yields for a stored `MetricValue`. -/
def toRecOut (m : MetricValue) : RecOut :=
  { metric_name := m.metric_name, timestamp := m.timestamp, value := m.value,
    node_name := m.node_name, cluster_name := m.cluster_name }

/-- A metric name that survives the CSV line round trip: no separator or line
terminator inside, and no leading whitespace or comment marker. -/
def cleanName (s : String) : Prop :=
  (∀ c ∈ s.data, c ≠ ',' ∧ c ≠ '\n' ∧ c ≠ '\r') ∧
  (∀ c, s.data.head? = some c → pyIsWs c = false ∧ c ≠ '#')

/-- The previous-hour instant `get_latest` falls back to (defined where the
day subtraction stays in the month). -/
def prevHour (t : DateTime) : DateTime :=
  if 0 < t.hour then { floorHour t with hour := t.hour - 1 }
  else { floorHour t with day := t.day - 1, hour := 23 }

/-- Spec-side firing condition of one rule in `evaluate_metric`: name match,
operator satisfied, enabled and out of cooldown. -/
def ruleFires (rule : AlertRule) (metric_name : String) (metric_value : ℚ)
    (node_key : String) (now : ℚ) : Bool :=
  decide (rule.metric = metric_name) && rule.evaluate metric_value &&
    rule.should_trigger node_key now

/-- Spec-side reading of the six supported comparison operators. -/
def opHolds (op : String) (x y : ℚ) : Prop :=
  match op with
  | ">" => x > y
  | "<" => x < y
  | ">=" => x ≥ y
  | "<=" => x ≤ y
  | "==" => x = y
  | "!=" => x ≠ y
  | _ => False

/-- Spec-side cooldown condition: never fired for this node key, or at least
`cooldown_seconds` elapsed. -/
def cooldownOk (rule : AlertRule) (node_key : String) (now : ℚ) : Prop :=
  rule.last_triggered node_key = none ∨
    ∃ last, rule.last_triggered node_key = some last ∧
      now - last ≥ (rule.cooldown_seconds : ℚ)

/-- The per-record facts claim C1 assumes about a batch written to one
(cluster, node, hour) bucket. -/
def sameBucketBatch (ms : List MetricValue) (cluster node : String)
    (Y M D H : Nat) : Prop :=
  ∀ mv ∈ ms, mv.cluster_name = cluster ∧ mv.node_name = node ∧
    ∃ t, validDT t ∧ mv.timestamp = isoFormat t ∧
      t.year = Y ∧ t.month = M ∧ t.day = D ∧ t.hour = H

/-- One line is timestamp-safe for `query`: either `_csv_line_to_metric`
rejects it, or the timestamp it carries parses. -/
def lineTimestampOk (cluster node : String) (line : String) : Bool :=
  match csv_line_to_metric line cluster node with
  | some r => (fromIso r.timestamp).isSome
  | none => true

/-- The well-timestamped condition on the bucket files a query over
`[start_time, end_time]` visits: every line that `_csv_line_to_metric`
accepts carries a timestamp `fromisoformat` accepts (the condition under
which `query` cannot raise `ValueError` from a record timestamp). -/
def wellTimestamped (fs : FS) (cluster node : String)
    (start_time end_time : DateTime) : Prop :=
  ∀ j ∈ hourRange start_time end_time,
    ∀ line ∈ bucketLines fs cluster node (idxToDT start_time.year start_time.month j),
      lineTimestampOk cluster node line = true

instance : IsTotal RecOut tsLe :=
  ⟨fun a b => le_total a.timestamp b.timestamp⟩

instance : IsTrans RecOut tsLe :=
  ⟨fun _ _ _ h1 h2 => le_trans h1 h2⟩

instance (fs : FS) (cluster node : String) (start_time end_time : DateTime) :
    Decidable (wellTimestamped fs cluster node start_time end_time) := by
  unfold wellTimestamped
  infer_instance

instance {ε α : Type} [DecidableEq ε] [DecidableEq α] : DecidableEq (Except ε α)
  | .error a, .error b =>
    if h : a = b then isTrue (by rw [h])
    else isFalse (by intro hc; injection hc; contradiction)
  | .error _, .ok _ => isFalse (by intro h; cases h)
  | .ok _, .error _ => isFalse (by intro h; cases h)
  | .ok a, .ok b =>
    if h : a = b then isTrue (by rw [h])
    else isFalse (by intro hc; injection hc; contradiction)

instance (s : String) : Decidable (cleanName s) := by
  unfold cleanName
  infer_instance

/-- Sample store used by the witnesses: one bucket for 2025-01-15 hour 10
holding one `clickhouse_status` record. -/
def fsW : FS :=
  FS.empty.update (bucketPath "c" "n" ⟨2025, 1, 15, 10, 30, 0, 0⟩)
    (.lines ["# metric_name,timestamp,value", "clickhouse_status,2025-01-15T10:30:00,1"])

/-- Sample records used by the C1 witness: two same-hour metrics. -/
def mvA : MetricValue :=
  { metric_id := "idA"
    metric_name := "clickhouse_status"
    value := 1
    timestamp := "2025-01-15T10:05:00"
    node_name := "n"
    cluster_name := "c" }

def mvB : MetricValue :=
  { metric_id := "idB"
    metric_name := "clickhouse_status"
    value := 0
    timestamp := "2025-01-15T10:35:00"
    node_name := "n"
    cluster_name := "c" }

/-- Record used by the C1 counterexample: stored in the last hour of January. -/
def mvCX : MetricValue :=
  { metric_id := "i"
    metric_name := "m"
    value := 1
    timestamp := "2025-01-31T23:10:00"
    node_name := "n"
    cluster_name := "c" }

/-- Store with a good hour-10 bucket and an hour-11 bucket whose lines all
fail CSV parsing (C3 witness). -/
def fsC3 : FS :=
  fsW.update (bucketPath "c" "n" ⟨2025, 1, 15, 11, 0, 0, 0⟩)
    (.lines ["garbage line", "a,b"])

/-- Store with a good hour-10 bucket and an hour-11 bucket holding a CSV-valid
line whose timestamp does not parse (C3 counterexample). -/
def fsC3bad : FS :=
  fsW.update (bucketPath "c" "n" ⟨2025, 1, 15, 11, 0, 0, 0⟩)
    (.lines ["foo,bad,3"])

/-! ## Lemmas: characters, stripping, splitting, integer round trip -/

theorem isDigitCh_digitChar10 (d : Nat) : isDigitCh (digitChar10 d) = true := by
  unfold digitChar10
  split <;> decide

theorem digitVal_digitChar10 {d : Nat} (h : d < 10) :
    digitVal (digitChar10 d) = d := by
  interval_cases d <;> decide

theorem not_ws_of_digit {c : Char} (h : isDigitCh c = true) : pyIsWs c = false := by
  unfold isDigitCh at h
  unfold pyIsWs
  simp only [Bool.or_eq_false_iff, decide_eq_false_iff_not]
  simp only [Bool.and_eq_true, decide_eq_true_eq] at h
  omega

theorem digitChar10_ne_comma (d : Nat) : digitChar10 d ≠ ',' := by
  unfold digitChar10
  split <;> decide

theorem digitChar10_ne_dot (d : Nat) : digitChar10 d ≠ '.' := by
  unfold digitChar10
  split <;> decide

theorem dropWhile_eq_self_of_head {l : List Char}
    (h : ∀ c, l.head? = some c → pyIsWs c = false) :
    l.dropWhile pyIsWs = l := by
  cases l with
  | nil => rfl
  | cons c rest =>
    have hc := h c rfl
    simp [List.dropWhile, hc]

theorem pyStripList_eq_self {l : List Char}
    (h1 : ∀ c, l.head? = some c → pyIsWs c = false)
    (h2 : ∀ c, l.getLast? = some c → pyIsWs c = false) :
    pyStripList l = l := by
  unfold pyStripList
  rw [dropWhile_eq_self_of_head h1]
  rw [dropWhile_eq_self_of_head (by
    intro c hc
    exact h2 c (by rwa [← List.head?_reverse]))]
  exact List.reverse_reverse l

theorem splitOnceCh_append {pre post : List Char} (c : Char)
    (h : ∀ x ∈ pre, x ≠ c) :
    splitOnceCh c (pre ++ c :: post) = some (pre, post) := by
  induction pre with
  | nil => simp [splitOnceCh]
  | cons x xs ih =>
    have hx : x ≠ c := h x (by simp)
    simp only [List.cons_append, splitOnceCh, if_neg hx]
    simp [ih (fun y hy => h y (by simp [hy]))]

theorem natReprAux_spec : ∀ (fuel n : Nat), n < fuel →
    natReprAux fuel n ≠ [] ∧ (natReprAux fuel n).all isDigitCh = true ∧
      digitsVal (natReprAux fuel n) = n := by
  intro fuel
  induction fuel with
  | zero => omega
  | succ f ih =>
    intro n hn
    by_cases h : n < 10
    · rw [natReprAux, if_pos h]
      refine ⟨by simp, by simp [isDigitCh_digitChar10], ?_⟩
      simp [digitsVal, digitVal_digitChar10 h]
    · rw [natReprAux, if_neg h]
      have hd := ih (n / 10) (by omega)
      refine ⟨by simp, ?_, ?_⟩
      · simp [List.all_append, hd.2.1, isDigitCh_digitChar10]
      · have heq : digitsVal (natReprAux f (n / 10) ++ [digitChar10 (n % 10)]) =
            digitsVal (natReprAux f (n / 10)) * 10 + digitVal (digitChar10 (n % 10)) := by
          unfold digitsVal
          rw [List.foldl_append]
          rfl
        rw [heq, hd.2.2, digitVal_digitChar10 (by omega)]
        omega

/-- `natRepr` produces a non-empty all-digit string whose value is `n`. -/
theorem natRepr_spec (n : Nat) :
    natRepr n ≠ [] ∧ (natRepr n).all isDigitCh = true ∧ digitsVal (natRepr n) = n :=
  natReprAux_spec (n + 1) n (by omega)

theorem parseDigits_natRepr (n : Nat) : parseDigits (natRepr n) = some n := by
  have h := natRepr_spec n
  unfold parseDigits
  rw [if_pos (by simp [h.1, h.2.1])]
  rw [h.2.2]

theorem natRepr_not_ws (n : Nat) :
    ∀ c, (∀ l, natRepr n = l → c ∈ l) → pyIsWs c = false := by
  intro c hc
  have hmem := hc (natRepr n) rfl
  have := (List.all_eq_true.mp (natRepr_spec n).2.1) c hmem
  exact not_ws_of_digit this

/-- Head and last of `natRepr` are digits (hence neither whitespace nor sign). -/
theorem natRepr_mem_digit {n : Nat} {c : Char} (h : c ∈ natRepr n) :
    isDigitCh c = true :=
  (List.all_eq_true.mp (natRepr_spec n).2.1) c h

theorem pyStripList_natRepr (n : Nat) : pyStripList (natRepr n) = natRepr n := by
  apply pyStripList_eq_self
  · intro c hc
    exact not_ws_of_digit (natRepr_mem_digit (List.mem_of_mem_head? hc))
  · intro c hc
    exact not_ws_of_digit (natRepr_mem_digit (List.mem_of_mem_getLast? hc))

theorem digit_ne_dash {c : Char} (h : isDigitCh c = true) : c ≠ '-' := by
  unfold isDigitCh at h
  simp only [Bool.and_eq_true, decide_eq_true_eq] at h
  intro hEq
  subst hEq
  simp at h

theorem digit_ne_plus {c : Char} (h : isDigitCh c = true) : c ≠ '+' := by
  unfold isDigitCh at h
  simp only [Bool.and_eq_true, decide_eq_true_eq] at h
  intro hEq
  subst hEq
  simp at h

/-- Python `int(str(v)) == v`. -/
theorem pyParseInt_pyIntRepr (v : Int) : pyParseInt (pyIntRepr v) = some v := by
  by_cases hv : v < 0
  · unfold pyIntRepr
    rw [if_pos hv]
    unfold pyParseInt
    have hstrip : pyStripList (String.mk ('-' :: natRepr v.natAbs)).data =
        '-' :: natRepr v.natAbs := by
      apply pyStripList_eq_self
      · intro c hc
        simp only [List.head?_cons, Option.some.injEq] at hc
        subst hc
        decide
      · intro c hc
        have hmem := List.mem_of_mem_getLast? hc
        rcases List.mem_cons.mp hmem with h1 | h2
        · subst h1; decide
        · exact not_ws_of_digit (natRepr_mem_digit h2)
    rw [hstrip]
    split
    · next heq => exact absurd heq (List.cons_ne_nil _ _)
    · next c2 rest2 heq =>
      obtain ⟨h1, h2⟩ := List.cons.inj heq
      subst h1
      subst h2
      rw [if_pos rfl, parseDigits_natRepr]
      show some (-(v.natAbs : Int)) = some v
      simp only [Option.some.injEq]
      omega
  · unfold pyIntRepr
    rw [if_neg hv]
    unfold pyParseInt
    rw [show pyStripList (String.mk (natRepr v.natAbs)).data = natRepr v.natAbs from
      pyStripList_natRepr v.natAbs]
    rcases hrep : natRepr v.natAbs with _ | ⟨c, cs⟩
    · exact absurd hrep (natRepr_spec v.natAbs).1
    · have hcdig : isDigitCh c = true := natRepr_mem_digit (by rw [hrep]; simp)
      split
      · next heq => exact absurd heq (List.cons_ne_nil _ _)
      · next c2 rest2 heq =>
        obtain ⟨h1, h2⟩ := List.cons.inj heq
        subst h1
        subst h2
        rw [if_neg (digit_ne_dash hcdig), if_neg (digit_ne_plus hcdig), ← hrep,
          parseDigits_natRepr]
        show some ((v.natAbs : Int)) = some v
        simp only [Option.some.injEq]
        omega

/-! ## Lemmas: isoformat round trip -/

theorem daysInMonth_le (y m : Nat) : daysInMonth y m ≤ 31 := by
  unfold daysInMonth
  split_ifs <;> omega

theorem digitsVal_pair4 (a b c d : Char) :
    digitsVal [a, b, c, d] =
      ((digitVal a * 10 + digitVal b) * 10 + digitVal c) * 10 + digitVal d := by
  simp [digitsVal, List.foldl]

theorem digitsVal_six (a b c d e f : Char) :
    digitsVal [a, b, c, d, e, f] =
      ((((digitVal a * 10 + digitVal b) * 10 + digitVal c) * 10 + digitVal d) * 10
        + digitVal e) * 10 + digitVal f := by
  simp [digitsVal, List.foldl]

theorem read2_cons (a b : Char) (rest : List Char) :
    read2 (a :: b :: rest) =
      if isDigits [a, b] then some (digitVal a * 10 + digitVal b, rest) else none := rfl

theorem read4_cons (a b c d : Char) (rest : List Char) :
    read4 (a :: b :: c :: d :: rest) =
      if isDigits [a, b, c, d] then some (digitsVal [a, b, c, d], rest) else none := rfl

theorem expectCh_cons (c x : Char) (rest : List Char) :
    expectCh c (x :: rest) = if x = c then some rest else none := rfl

theorem readFrac_cons (x : Char) (rest : List Char) :
    readFrac (x :: rest) =
      if x = '.' && rest.length = 6 && isDigits rest then some (digitsVal rest)
      else none := rfl

theorem read2_pad2 (n : Nat) (h : n ≤ 99) (rest : List Char) :
    read2 (pad2 n ++ rest) = some (n, rest) := by
  rw [show pad2 n ++ rest = digitChar10 (n / 10) :: digitChar10 (n % 10) :: rest from rfl]
  rw [read2_cons, if_pos (by simp [isDigits, isDigitCh_digitChar10])]
  rw [digitVal_digitChar10 (by omega), digitVal_digitChar10 (by omega)]
  congr 2
  omega

theorem read4_pad4 (n : Nat) (h : n ≤ 9999) (rest : List Char) :
    read4 (pad4 n ++ rest) = some (n, rest) := by
  rw [show pad4 n ++ rest = digitChar10 (n / 1000) :: digitChar10 (n / 100 % 10) ::
    digitChar10 (n / 10 % 10) :: digitChar10 (n % 10) :: rest from rfl]
  rw [read4_cons, if_pos (by simp [isDigits, isDigitCh_digitChar10])]
  rw [digitsVal_pair4]
  rw [digitVal_digitChar10 (by omega), digitVal_digitChar10 (by omega),
    digitVal_digitChar10 (by omega), digitVal_digitChar10 (by omega)]
  congr 2
  omega

theorem readFrac_pad6 (n : Nat) (h : n ≤ 999999) :
    readFrac ('.' :: pad6 n) = some n := by
  rw [show ('.' :: pad6 n) = '.' :: digitChar10 (n / 100000) :: digitChar10 (n / 10000 % 10) ::
    digitChar10 (n / 1000 % 10) :: digitChar10 (n / 100 % 10) ::
    digitChar10 (n / 10 % 10) :: [digitChar10 (n % 10)] from rfl]
  rw [readFrac_cons]
  rw [if_pos (by simp [isDigits, isDigitCh_digitChar10])]
  rw [digitsVal_six]
  rw [digitVal_digitChar10 (by omega), digitVal_digitChar10 (by omega),
    digitVal_digitChar10 (by omega), digitVal_digitChar10 (by omega),
    digitVal_digitChar10 (by omega), digitVal_digitChar10 (by omega)]
  congr 1
  omega

/-- `datetime.fromisoformat(t.isoformat()) == t` for every valid datetime. -/
theorem fromIso_isoFormat {t : DateTime} (h : validDT t) :
    fromIso (isoFormat t) = some t := by
  obtain ⟨h1, h2, h3, h4, h5, h6, h7, h8, h9, h10⟩ := h
  unfold fromIso isoFormat
  rw [show (String.mk (pad4 t.year ++ '-' :: pad2 t.month ++ '-' :: pad2 t.day ++
    'T' :: pad2 t.hour ++ ':' :: pad2 t.minute ++ ':' :: pad2 t.second ++
    (if t.microsecond = 0 then [] else '.' :: pad6 t.microsecond))).data =
    pad4 t.year ++ '-' :: pad2 t.month ++ '-' :: pad2 t.day ++
    'T' :: pad2 t.hour ++ ':' :: pad2 t.minute ++ ':' :: pad2 t.second ++
    (if t.microsecond = 0 then [] else '.' :: pad6 t.microsecond) from rfl]
  simp only [List.append_assoc, List.cons_append]
  rw [read4_pad4 t.year (by omega)]
  simp only [Option.bind_eq_bind, Option.some_bind']
  rw [expectCh_cons, if_pos rfl]
  simp only [Option.some_bind']
  rw [read2_pad2 t.month (by omega)]
  simp only [Option.some_bind']
  rw [expectCh_cons, if_pos rfl]
  simp only [Option.some_bind']
  rw [read2_pad2 t.day (by have := daysInMonth_le t.year t.month; omega)]
  simp only [Option.some_bind']
  rw [expectCh_cons, if_pos rfl]
  simp only [Option.some_bind']
  rw [read2_pad2 t.hour (by omega)]
  simp only [Option.some_bind']
  rw [expectCh_cons, if_pos rfl]
  simp only [Option.some_bind']
  rw [read2_pad2 t.minute (by omega)]
  simp only [Option.some_bind']
  rw [expectCh_cons, if_pos rfl]
  simp only [Option.some_bind']
  rw [read2_pad2 t.second (by omega)]
  simp only [Option.some_bind']
  by_cases hus : t.microsecond = 0
  · rw [if_pos hus]
    rw [show readFrac [] = some 0 from rfl]
    simp only [Option.some_bind']
    rw [if_pos (show validDT ⟨t.year, t.month, t.day, t.hour, t.minute, t.second, 0⟩ from
      ⟨h1, h2, h3, h4, h5, h6, h7, h8, h9, by simp⟩)]
    rw [← hus]
  · rw [if_neg hus]
    rw [readFrac_pad6 t.microsecond (by omega)]
    simp only [Option.some_bind']
    rw [if_pos (show validDT ⟨t.year, t.month, t.day, t.hour, t.minute, t.second,
      t.microsecond⟩ from ⟨h1, h2, h3, h4, h5, h6, h7, h8, h9, h10⟩)]

/-! ## Lemmas: CSV line round trip -/

theorem digit_ne_comma {c : Char} (h : isDigitCh c = true) : c ≠ ',' := by
  unfold isDigitCh at h
  simp only [Bool.and_eq_true, decide_eq_true_eq] at h
  intro hEq
  subst hEq
  simp at h

theorem digit_ne_dot {c : Char} (h : isDigitCh c = true) : c ≠ '.' := by
  unfold isDigitCh at h
  simp only [Bool.and_eq_true, decide_eq_true_eq] at h
  intro hEq
  subst hEq
  simp at h

theorem mem_pad2 {c : Char} {n : Nat} (h : c ∈ pad2 n) : isDigitCh c = true := by
  simp only [pad2, List.mem_cons, List.not_mem_nil, or_false] at h
  rcases h with rfl | rfl <;> exact isDigitCh_digitChar10 _

theorem mem_pad4 {c : Char} {n : Nat} (h : c ∈ pad4 n) : isDigitCh c = true := by
  simp only [pad4, List.mem_cons, List.not_mem_nil, or_false] at h
  rcases h with rfl | rfl | rfl | rfl <;> exact isDigitCh_digitChar10 _

theorem mem_pad6 {c : Char} {n : Nat} (h : c ∈ pad6 n) : isDigitCh c = true := by
  simp only [pad6, List.mem_cons, List.not_mem_nil, or_false] at h
  rcases h with rfl | rfl | rfl | rfl | rfl | rfl <;> exact isDigitCh_digitChar10 _

/-- No comma occurs in an isoformat timestamp. -/
theorem comma_not_mem_isoFormat (t : DateTime) :
    ∀ c ∈ (isoFormat t).data, c ≠ ',' := by
  intro c hc
  rw [show (isoFormat t).data = pad4 t.year ++ '-' :: pad2 t.month ++ '-' :: pad2 t.day ++
    'T' :: pad2 t.hour ++ ':' :: pad2 t.minute ++ ':' :: pad2 t.second ++
    (if t.microsecond = 0 then [] else '.' :: pad6 t.microsecond) from rfl] at hc
  by_cases hus : t.microsecond = 0
  · rw [if_pos hus] at hc
    simp only [List.mem_append, List.mem_cons, List.not_mem_nil, or_false] at hc
    repeat'
      first
      | (subst hc; decide)
      | exact digit_ne_comma (mem_pad4 hc)
      | exact digit_ne_comma (mem_pad2 hc)
      | exact digit_ne_comma (mem_pad6 hc)
      | rcases hc with hc | hc
  · rw [if_neg hus] at hc
    simp only [List.mem_append, List.mem_cons, List.not_mem_nil, or_false] at hc
    repeat'
      first
      | (subst hc; decide)
      | exact digit_ne_comma (mem_pad4 hc)
      | exact digit_ne_comma (mem_pad2 hc)
      | exact digit_ne_comma (mem_pad6 hc)
      | rcases hc with hc | hc

/-- Characters of `str(v)` for an integer: a sign or digits (never `'.'`,
never a comma). -/
theorem mem_pyIntRepr {c : Char} {v : Int} (h : c ∈ (pyIntRepr v).data) :
    c = '-' ∨ isDigitCh c = true := by
  unfold pyIntRepr at h
  by_cases hv : v < 0
  · rw [if_pos hv] at h
    rcases List.mem_cons.mp h with rfl | h2
    · exact Or.inl rfl
    · exact Or.inr (natRepr_mem_digit h2)
  · rw [if_neg hv] at h
    exact Or.inr (natRepr_mem_digit h)

theorem pyIntRepr_no_dot (v : Int) : ∀ c ∈ (pyIntRepr v).data, c ≠ '.' := by
  intro c hc
  rcases mem_pyIntRepr hc with rfl | h
  · decide
  · exact digit_ne_dot h

theorem pyIntRepr_getLast_digit (v : Int) :
    ∀ c, (pyIntRepr v).data.getLast? = some c → isDigitCh c = true := by
  intro c hc
  unfold pyIntRepr at hc
  by_cases hv : v < 0
  · rw [if_pos hv] at hc
    rw [show ('-' :: natRepr v.natAbs) = ['-'] ++ natRepr v.natAbs from rfl,
      List.getLast?_append] at hc
    rcases hrep : natRepr v.natAbs with _ | ⟨a, as⟩
    · exact absurd hrep (natRepr_spec v.natAbs).1
    · rw [hrep] at hc
      have hne : (a :: as).getLast? ≠ none := by simp
      rcases ho : (a :: as).getLast? with _ | d
      · exact absurd ho hne
      · rw [ho] at hc
        simp only [Option.or_some, Option.some.injEq] at hc
        subst hc
        exact natRepr_mem_digit (hrep ▸ List.mem_of_mem_getLast? ho)
  · rw [if_neg hv] at hc
    exact natRepr_mem_digit (List.mem_of_mem_getLast? hc)

theorem contains_dot_false {l : List Char} (h : ∀ c ∈ l, c ≠ '.') :
    l.contains '.' = false := by
  rw [List.contains_eq_any_beq, List.any_eq_false]
  intro c hc
  simp only [beq_iff_eq]
  exact fun he => h c hc he.symm

/-- The CSV line written by `store` parses back to the same field values
(for a clean metric name, an isoformat timestamp, and an integer value). -/
theorem csv_line_to_metric_roundtrip (m : MetricValue) (t : DateTime)
    (cluster node : String)
    (hname : cleanName m.metric_name) (hts : m.timestamp = isoFormat t) :
    csv_line_to_metric (metric_to_csv_line m) cluster node =
      some { metric_name := m.metric_name, timestamp := m.timestamp,
             value := m.value, node_name := node, cluster_name := cluster } := by
  obtain ⟨hnc, hnh⟩ := hname
  have hdata : (metric_to_csv_line m).data =
      m.metric_name.data ++ ',' :: ((isoFormat t).data ++ ',' :: (pyIntRepr m.value).data) := by
    unfold metric_to_csv_line
    rw [hts]
    simp [String.data_append]
  have hreprne : (pyIntRepr m.value).data ≠ [] := by
    unfold pyIntRepr
    split
    · simp
    · simpa using (natRepr_spec m.value.natAbs).1
  have hlast : ∀ c, (metric_to_csv_line m).data.getLast? = some c → pyIsWs c = false := by
    intro c hc
    rw [hdata, List.getLast?_append,
      show (',' :: ((isoFormat t).data ++ ',' :: (pyIntRepr m.value).data)) =
        [','] ++ ((isoFormat t).data ++ ',' :: (pyIntRepr m.value).data) from rfl,
      List.getLast?_append, List.getLast?_append,
      show (',' :: (pyIntRepr m.value).data) = [','] ++ (pyIntRepr m.value).data from rfl,
      List.getLast?_append] at hc
    rcases ho : (pyIntRepr m.value).data.getLast? with _ | d
    · exact absurd (List.getLast?_eq_none_iff.mp ho) hreprne
    · rw [ho] at hc
      simp only [Option.or_some, Option.some.injEq] at hc
      subst hc
      exact not_ws_of_digit (pyIntRepr_getLast_digit m.value d ho)
  have hhead : ∀ c, (metric_to_csv_line m).data.head? = some c →
      pyIsWs c = false ∧ c ≠ '#' := by
    intro c hc
    rw [hdata, List.head?_append] at hc
    rcases hn : m.metric_name.data with _ | ⟨a, as⟩
    · rw [hn] at hc
      simp only [List.head?_nil, Option.none_or, List.head?_cons,
        Option.some.injEq] at hc
      subst hc
      exact ⟨by decide, by decide⟩
    · rw [hn] at hc
      rw [show ((a :: as : List Char).head?.or
        ((',' :: ((isoFormat t).data ++ ',' :: (pyIntRepr m.value).data)).head?)) =
        some a from rfl] at hc
      obtain rfl : a = c := Option.some.inj hc
      exact hnh a (by rw [hn]; rfl)
  have hstripData : pyStripList (metric_to_csv_line m).data = (metric_to_csv_line m).data :=
    pyStripList_eq_self (fun c hc => (hhead c hc).1) hlast
  have hne : (metric_to_csv_line m).data ≠ [] := by
    rw [hdata]
    simp
  unfold csv_line_to_metric
  rw [show pyStrip (metric_to_csv_line m) = metric_to_csv_line m from by
    unfold pyStrip
    rw [hstripData]]
  rw [if_neg (by
    simp only [Bool.or_eq_true, decide_eq_true_eq]
    push_neg
    refine ⟨hne, ?_⟩
    intro hcontra
    exact absurd ((hhead '#' hcontra).2) (by simp))]
  have hsplit : pySplit2 (metric_to_csv_line m) =
      [m.metric_name, isoFormat t, pyIntRepr m.value] := by
    unfold pySplit2
    rw [hdata]
    rw [splitOnceCh_append ',' (fun x hx => (hnc x hx).1)]
    show (match splitOnceCh ',' ((isoFormat t).data ++ ',' :: (pyIntRepr m.value).data) with
      | none => [String.mk m.metric_name.data,
          String.mk ((isoFormat t).data ++ ',' :: (pyIntRepr m.value).data)]
      | some (b, c) => [String.mk m.metric_name.data, String.mk b, String.mk c]) = _
    rw [splitOnceCh_append ',' (comma_not_mem_isoFormat t)]
  rw [hsplit]
  show (if (pyIntRepr m.value).data.contains '.' then (none : Option RecOut)
      else match pyParseInt (pyIntRepr m.value) with
        | none => none
        | some v =>
          some { metric_name := m.metric_name
                 timestamp := isoFormat t
                 value := v
                 node_name := node
                 cluster_name := cluster }) =
    some { metric_name := m.metric_name
           timestamp := m.timestamp
           value := m.value
           node_name := node
           cluster_name := cluster }
  rw [if_neg (by
    simp only [Bool.not_eq_true]
    exact contains_dot_false (pyIntRepr_no_dot m.value))]
  rw [pyParseInt_pyIntRepr m.value, hts]

/-! ## Lemmas: the store -/

theorem FS.update_same (fs : FS) (p : BucketPath) (c : FileContent) :
    fs.update p c p = some c := by
  simp [FS.update]

theorem FS.update_other (fs : FS) (p q : BucketPath) (c : FileContent)
    (h : q ≠ p) : fs.update p c q = fs q := by
  simp [FS.update, h]

theorem FS.update_update (fs : FS) (p : BucketPath) (a b : FileContent) :
    (fs.update p a).update p b = fs.update p b := by
  funext q
  unfold FS.update
  split <;> rfl

theorem FS.update_self (fs : FS) (p : BucketPath) (c : FileContent)
    (h : fs p = some c) : fs.update p c = fs := by
  funext q
  unfold FS.update
  split
  · next heq => rw [heq, h]
  · rfl

theorem store_fresh (fs : FS) (m : MetricValue) (t : DateTime)
    (hts : m.timestamp = isoFormat t) (hv : validDT t)
    (h : fs (bucketPath m.cluster_name m.node_name t) = none) :
    MetricStorage.store fs m =
      some (fs.update (bucketPath m.cluster_name m.node_name t)
        (.lines [CSV_HEADER, metric_to_csv_line m])) := by
  unfold MetricStorage.store
  rw [hts, fromIso_isoFormat hv]
  show (match fs (bucketPath m.cluster_name m.node_name t) with
    | none => some (fs.update (bucketPath m.cluster_name m.node_name t)
        (FileContent.lines [CSV_HEADER, metric_to_csv_line m]))
    | some (FileContent.lines ls) => some (fs.update (bucketPath m.cluster_name m.node_name t)
        (FileContent.lines (ls ++ [metric_to_csv_line m])))
    | some FileContent.unreadable => none) = _
  rw [h]

theorem store_existing (fs : FS) (m : MetricValue) (t : DateTime) (ls : List String)
    (hts : m.timestamp = isoFormat t) (hv : validDT t)
    (h : fs (bucketPath m.cluster_name m.node_name t) = some (.lines ls)) :
    MetricStorage.store fs m =
      some (fs.update (bucketPath m.cluster_name m.node_name t)
        (.lines (ls ++ [metric_to_csv_line m]))) := by
  unfold MetricStorage.store
  rw [hts, fromIso_isoFormat hv]
  show (match fs (bucketPath m.cluster_name m.node_name t) with
    | none => some (fs.update (bucketPath m.cluster_name m.node_name t)
        (FileContent.lines [CSV_HEADER, metric_to_csv_line m]))
    | some (FileContent.lines ls2) => some (fs.update (bucketPath m.cluster_name m.node_name t)
        (FileContent.lines (ls2 ++ [metric_to_csv_line m])))
    | some FileContent.unreadable => none) = _
  rw [h]

theorem store_batch_same_bucket (ms : List MetricValue) (cluster node : String)
    (Y M D H : Nat) :
    ∀ (fs : FS) (ls : List String),
      sameBucketBatch ms cluster node Y M D H →
      fs ⟨cluster, node, Y, M, D, H⟩ = some (.lines ls) →
      MetricStorage.store_batch fs ms =
        some (fs.update ⟨cluster, node, Y, M, D, H⟩
          (.lines (ls ++ ms.map metric_to_csv_line))) := by
  induction ms with
  | nil =>
    intro fs ls _ hfs
    unfold MetricStorage.store_batch
    simp only [List.foldlM_nil, List.map_nil, List.append_nil]
    rw [FS.update_self fs _ _ hfs]
    rfl
  | cons mv rest ih =>
    intro fs ls hms hfs
    obtain ⟨hcl, hnd, t, hvt, hts, hY, hM, hD, hH⟩ := hms mv (by simp)
    have hp : bucketPath mv.cluster_name mv.node_name t =
        (⟨cluster, node, Y, M, D, H⟩ : BucketPath) := by
      unfold bucketPath
      rw [hcl, hnd, hY, hM, hD, hH]
    unfold MetricStorage.store_batch
    simp only [List.foldlM_cons]
    rw [show MetricStorage.store fs mv =
        some (fs.update (⟨cluster, node, Y, M, D, H⟩ : BucketPath)
          (.lines (ls ++ [metric_to_csv_line mv]))) from by
      rw [← hp]
      exact store_existing fs mv t ls hts hvt (hp ▸ hfs)]
    have ih2 := ih (fs.update ⟨cluster, node, Y, M, D, H⟩
        (.lines (ls ++ [metric_to_csv_line mv]))) (ls ++ [metric_to_csv_line mv])
      (fun x hx => hms x (by simp [hx])) (FS.update_same _ _ _)
    unfold MetricStorage.store_batch at ih2
    rw [show (some (fs.update (⟨cluster, node, Y, M, D, H⟩ : BucketPath)
        (.lines (ls ++ [metric_to_csv_line mv]))) >>=
        fun fs2 => List.foldlM MetricStorage.store fs2 rest) =
        List.foldlM MetricStorage.store
          (fs.update (⟨cluster, node, Y, M, D, H⟩ : BucketPath)
            (.lines (ls ++ [metric_to_csv_line mv]))) rest from rfl]
    rw [ih2, FS.update_update]
    simp

/-! ## Lemmas: hour indexing -/

theorem floorHour_eq_idxToDT (t : DateTime) (h : t.hour ≤ 23) :
    floorHour t = idxToDT t.year t.month (hourIdx t) := by
  cases t with
  | mk y mo d hh mi ss us =>
    change hh ≤ 23 at h
    simp only [floorHour, idxToDT, hourIdx, DateTime.mk.injEq, and_true, true_and]
    omega

theorem idxToDT_succ_hour (y m i : Nat) (h : i % 24 < 23) :
    ({ idxToDT y m i with hour := (idxToDT y m i).hour + 1 } : DateTime) =
      idxToDT y m (i + 1) := by
  simp only [idxToDT, DateTime.mk.injEq, and_true, true_and]
  omega

theorem idxToDT_succ_day (y m i : Nat) (h : i % 24 = 23) :
    ({ idxToDT y m i with day := (idxToDT y m i).day + 1, hour := 0 } : DateTime) =
      idxToDT y m (i + 1) := by
  simp only [idxToDT, DateTime.mk.injEq, and_true, true_and]
  omega

/-- For a whole-hour instant and a bound in the same month, Python's datetime
comparison is the comparison of month-hour indices. -/
theorem dtLe_whole_hour_iff (y m i : Nat) (e : DateTime)
    (hy : e.year = y) (hm : e.month = m)
    (hmi : e.minute ≤ 59) (hss : e.second ≤ 59) (hus : e.microsecond ≤ 999999) :
    dtLe (idxToDT y m i) e ↔ i ≤ hourIdx e := by
  cases e with
  | mk ey em ed eh emi ess eus =>
    simp only at hy hm hmi hss hus
    subst hy
    subst hm
    unfold dtLe dtKey idxToDT hourIdx
    simp only
    omega

/-! ## Lemmas: the query loop -/

/-- Lines whose parsed timestamps all parse make the file loop succeed, and
its result is the filtered `filterMap` of the parser over the lines. -/
theorem processLines_ok (cluster node : String) (start_time end_time : DateTime)
    (mn : Option String) :
    ∀ ls : List String,
      (∀ line ∈ ls, ∀ r, csv_line_to_metric line cluster node = some r →
        (fromIso r.timestamp).isSome = true) →
      processLines cluster node start_time end_time mn ls =
        .ok ((ls.filterMap (fun line => csv_line_to_metric line cluster node)).filter
          (recInRange start_time end_time mn))
  | [], _ => rfl
  | line :: rest, hwt => by
    have ih := processLines_ok cluster node start_time end_time mn rest
      (fun l hl r hr => hwt l (by simp [hl]) r hr)
    unfold processLines
    rcases hcsv : csv_line_to_metric line cluster node with _ | r
    · show processLines cluster node start_time end_time mn rest = _
      rw [ih, show List.filterMap (fun l => csv_line_to_metric l cluster node)
        (line :: rest) = List.filterMap (fun l => csv_line_to_metric l cluster node) rest
        from List.filterMap_cons_none hcsv]
    · have hsome := hwt line (by simp) r hcsv
      rcases hmt : fromIso r.timestamp with _ | mt
      · rw [hmt] at hsome
        simp at hsome
      · show (match fromIso r.timestamp with
          | none => Except.error QErr.valueError
          | some mt2 =>
            match processLines cluster node start_time end_time mn rest with
            | Except.error e2 => Except.error e2
            | Except.ok rs => Except.ok (if keepRecord start_time end_time mn r mt2 then
                r :: rs else rs)) = _
        rw [hmt]
        show (match processLines cluster node start_time end_time mn rest with
          | Except.error e2 => Except.error e2
          | Except.ok rs => Except.ok (if keepRecord start_time end_time mn r mt then r :: rs
              else rs)) = _
        rw [ih]
        show Except.ok (if keepRecord start_time end_time mn r mt then
            r :: (rest.filterMap (fun l => csv_line_to_metric l cluster node)).filter
              (recInRange start_time end_time mn)
          else (rest.filterMap (fun l => csv_line_to_metric l cluster node)).filter
              (recInRange start_time end_time mn)) = _

        rw [show List.filterMap (fun l => csv_line_to_metric l cluster node)
          (line :: rest) = r :: List.filterMap (fun l => csv_line_to_metric l cluster node)
          rest from List.filterMap_cons_some hcsv, List.filter_cons]
        have hrec : recInRange start_time end_time mn r =
            keepRecord start_time end_time mn r mt := by
          unfold recInRange
          rw [hmt]
        rw [hrec]

/-- One bucket read: missing and unreadable files are empty; otherwise the
line loop runs. -/
theorem readBucket_ok (fs : FS) (cluster node : String)
    (start_time end_time : DateTime) (mn : Option String) (current : DateTime)
    (hwt : ∀ line ∈ bucketLines fs cluster node current,
      ∀ r, csv_line_to_metric line cluster node = some r →
        (fromIso r.timestamp).isSome = true) :
    readBucket fs cluster node start_time end_time mn current =
      .ok ((bucketParsed fs cluster node current).filter
        (recInRange start_time end_time mn)) := by
  unfold readBucket bucketParsed
  unfold bucketLines at hwt ⊢
  rcases hfs : fs (bucketPath cluster node current) with _ | content
  · rfl
  · cases content with
    | unreadable => rfl
    | lines ls =>
      rw [hfs] at hwt
      exact processLines_ok cluster node start_time end_time mn ls hwt

/-- The hour-walk of `query`, characterized: starting at month-hour index `i`
with enough fuel, in a month whose final hour lies beyond `end_time`, the walk
returns exactly the filtered parse of every bucket from `i` up to the hour of
`end_time`. -/
theorem queryLoop_ok (fs : FS) (cluster node : String)
    (start_time end_time : DateTime) (mn : Option String) (y m : Nat)
    (hy : end_time.year = y) (hm : end_time.month = m)
    (hmi : end_time.minute ≤ 59) (hss : end_time.second ≤ 59)
    (hus : end_time.microsecond ≤ 999999)
    (hlast : hourIdx end_time < daysInMonth y m * 24 + 23) :
    ∀ fuel i : Nat, 24 ≤ i → i ≤ daysInMonth y m * 24 + 23 →
      hourIdx end_time + 2 - i ≤ fuel → 1 ≤ fuel →
      (∀ j ∈ List.range' i (hourIdx end_time + 1 - i),
        ∀ line ∈ bucketLines fs cluster node (idxToDT y m j),
        ∀ r, csv_line_to_metric line cluster node = some r →
          (fromIso r.timestamp).isSome = true) →
      queryLoop fs cluster node start_time end_time mn fuel (idxToDT y m i) =
        .ok (((List.range' i (hourIdx end_time + 1 - i)).map (idxToDT y m)).flatMap
          (fun tc => (bucketParsed fs cluster node tc).filter
            (recInRange start_time end_time mn))) := by
  intro fuel
  induction fuel with
  | zero =>
    intro i _ _ _ h1 _
    omega
  | succ f ihf =>
    intro i h24 hup hfuel _ hwt
    by_cases hle : i ≤ hourIdx end_time
    · have hi_mem : i ∈ List.range' i (hourIdx end_time + 1 - i) :=
        List.mem_range'.mpr ⟨0, by omega, by omega⟩
      unfold queryLoop
      rw [if_pos ((dtLe_whole_hour_iff y m i end_time hy hm hmi hss hus).mpr hle)]
      rw [readBucket_ok fs cluster node start_time end_time mn (idxToDT y m i)
        (hwt i hi_mem)]
      show (if (idxToDT y m i).hour < 23 then
          match queryLoop fs cluster node start_time end_time mn f
              { idxToDT y m i with hour := (idxToDT y m i).hour + 1 } with
          | Except.error e => Except.error e
          | Except.ok rest => Except.ok ((bucketParsed fs cluster node (idxToDT y m i)).filter
              (recInRange start_time end_time mn) ++ rest)
        else if (idxToDT y m i).day + 1 ≤
            daysInMonth (idxToDT y m i).year (idxToDT y m i).month then
          match queryLoop fs cluster node start_time end_time mn f
              { idxToDT y m i with day := (idxToDT y m i).day + 1, hour := 0 } with
          | Except.error e => Except.error e
          | Except.ok rest => Except.ok ((bucketParsed fs cluster node (idxToDT y m i)).filter
              (recInRange start_time end_time mn) ++ rest)
        else Except.error QErr.valueError) = _
      have hsucc : queryLoop fs cluster node start_time end_time mn f
          (idxToDT y m (i + 1)) =
          .ok (((List.range' (i + 1) (hourIdx end_time + 1 - (i + 1))).map
            (idxToDT y m)).flatMap
            (fun tc => (bucketParsed fs cluster node tc).filter
              (recInRange start_time end_time mn))) := by
        refine ihf (i + 1) (by omega) (by omega) (by omega) (by omega) ?_
        intro j hj
        refine hwt j ?_
        obtain ⟨k, hk, rfl⟩ := List.mem_range'.mp hj
        exact List.mem_range'.mpr ⟨k + 1, by omega, by omega⟩
      have hcount : hourIdx end_time + 1 - i = (hourIdx end_time + 1 - (i + 1)) + 1 := by
        omega
      by_cases hh : i % 24 < 23
      · rw [if_pos (show (idxToDT y m i).hour < 23 from hh)]
        rw [idxToDT_succ_hour y m i hh, hsucc]
        show Except.ok ((bucketParsed fs cluster node (idxToDT y m i)).filter
            (recInRange start_time end_time mn) ++
          ((List.range' (i + 1) (hourIdx end_time + 1 - (i + 1))).map
            (idxToDT y m)).flatMap
            (fun tc => (bucketParsed fs cluster node tc).filter
              (recInRange start_time end_time mn))) = _
        rw [hcount, List.range'_succ]
        simp [List.flatMap_cons]
      · have hh23 : i % 24 = 23 := by omega
        rw [if_neg (show ¬ (idxToDT y m i).hour < 23 from by
          show ¬ i % 24 < 23
          omega)]
        rw [if_pos (show (idxToDT y m i).day + 1 ≤
            daysInMonth (idxToDT y m i).year (idxToDT y m i).month from by
          show i / 24 + 1 ≤ daysInMonth y m
          omega)]
        rw [idxToDT_succ_day y m i hh23, hsucc]
        show Except.ok ((bucketParsed fs cluster node (idxToDT y m i)).filter
            (recInRange start_time end_time mn) ++
          ((List.range' (i + 1) (hourIdx end_time + 1 - (i + 1))).map
            (idxToDT y m)).flatMap
            (fun tc => (bucketParsed fs cluster node tc).filter
              (recInRange start_time end_time mn))) = _
        rw [hcount, List.range'_succ]
        simp [List.flatMap_cons]
    · have hcount : hourIdx end_time + 1 - i = 0 := by omega
      rw [hcount]
      unfold queryLoop
      rw [if_neg (fun hcon =>
        hle ((dtLe_whole_hour_iff y m i end_time hy hm hmi hss hus).mp hcon))]
      rfl

/-- `query`, characterized on a same-month range that stays clear of the
month's final hour: it succeeds and returns the sorted filtered parse of the
hour buckets intersecting the range. -/
theorem query_characterization (fs : FS) (cluster node : String)
    (start_time end_time : DateTime) (mn : Option String)
    (hs : validDT start_time) (he : validDT end_time)
    (hy : end_time.year = start_time.year) (hm : end_time.month = start_time.month)
    (hlast : hourIdx end_time < daysInMonth start_time.year start_time.month * 24 + 23)
    (hwt : wellTimestamped fs cluster node start_time end_time) :
    JsonMetricStorage.query fs cluster node start_time end_time mn =
      .ok (List.insertionSort tsLe (specCollect fs cluster node start_time end_time mn)) := by
  obtain ⟨hs1, hs2, hs3, hs4, hs5, hs6, hs7, hs8, hs9, hs10⟩ := hs
  obtain ⟨he1, he2, he3, he4, he5, he6, he7, he8, he9, he10⟩ := he
  have hdim := daysInMonth_le start_time.year start_time.month
  have hwt2 : ∀ j ∈ hourRange start_time end_time,
      ∀ line ∈ bucketLines fs cluster node (idxToDT start_time.year start_time.month j),
      ∀ r, csv_line_to_metric line cluster node = some r →
        (fromIso r.timestamp).isSome = true := by
    intro j hj line hline r hr
    have hok := hwt j hj line hline
    unfold lineTimestampOk at hok
    rw [hr] at hok
    exact hok
  unfold JsonMetricStorage.query
  rw [floorHour_eq_idxToDT start_time hs7]
  rw [queryLoop_ok fs cluster node start_time end_time mn
    start_time.year start_time.month hy hm he8 he9 he10 hlast queryFuel
    (hourIdx start_time)
    (by unfold hourIdx; omega)
    (by unfold hourIdx; omega)
    (by unfold queryFuel hourIdx at *; omega)
    (by unfold queryFuel; omega)
    hwt2]
  rfl

/-! ## Claim C2 -/

/-- C2 (amended): for `start_time ≤ end_time` in the same calendar month with
the range stopping short of the month's final hour, and bucket files whose
csv-parsable lines carry parseable timestamps, `query` never raises: it
enumerates exactly the hour buckets intersecting `[start_time, end_time]` and
returns, sorted ascending by timestamp, exactly the parsed records in range
whose metric name matches the optional filter; missing buckets contribute
nothing, and if no bucket file exists in the window the result is the empty
list.  (The original claim is refuted by `c2_monthend_counterexample`: a
range crossing the end of a month makes the hour loop's `replace(day=day+1)`
raise `ValueError`, even with no files at all.) -/
theorem c2_query_contract (fs : FS) (cluster node : String)
    (start_time end_time : DateTime) (mn : Option String)
    (hs : validDT start_time) (he : validDT end_time)
    (_hle : dtLe start_time end_time)
    (hy : end_time.year = start_time.year) (hm : end_time.month = start_time.month)
    (hlast : hourIdx end_time < daysInMonth start_time.year start_time.month * 24 + 23)
    (hwt : wellTimestamped fs cluster node start_time end_time) :
    ∃ l, JsonMetricStorage.query fs cluster node start_time end_time mn = .ok l ∧
      List.Perm l (specCollect fs cluster node start_time end_time mn) ∧
      l.Sorted tsLe ∧
      (∀ j ∈ hourRange start_time end_time,
        fs (bucketPath cluster node (idxToDT start_time.year start_time.month j)) = none →
          (bucketParsed fs cluster node (idxToDT start_time.year start_time.month j)).filter
            (recInRange start_time end_time mn) = []) ∧
      ((∀ j ∈ hourRange start_time end_time,
          fs (bucketPath cluster node (idxToDT start_time.year start_time.month j)) = none) →
        l = []) := by
  refine ⟨List.insertionSort tsLe (specCollect fs cluster node start_time end_time mn),
    query_characterization fs cluster node start_time end_time mn hs he hy hm hlast hwt,
    List.perm_insertionSort tsLe _,
    List.sorted_insertionSort tsLe _,
    ?_, ?_⟩
  · intro j _ hnone
    unfold bucketParsed bucketLines
    rw [hnone]
    rfl
  · intro hall
    have hnilc : specCollect fs cluster node start_time end_time mn = [] := by
      unfold specCollect
      rw [List.flatMap_eq_nil_iff]
      intro tc htc
      obtain ⟨j, hj, rfl⟩ := List.mem_map.mp htc
      unfold bucketParsed bucketLines
      rw [hall j hj]
      rfl
    rw [hnilc]
    rfl

theorem c2_query_contract_witness :
    validDT ⟨2025, 1, 15, 10, 0, 0, 0⟩ ∧ validDT ⟨2025, 1, 15, 11, 0, 0, 0⟩ ∧
    dtLe ⟨2025, 1, 15, 10, 0, 0, 0⟩ ⟨2025, 1, 15, 11, 0, 0, 0⟩ ∧
    wellTimestamped fsW "c" "n" ⟨2025, 1, 15, 10, 0, 0, 0⟩ ⟨2025, 1, 15, 11, 0, 0, 0⟩ ∧
    ∃ l, JsonMetricStorage.query fsW "c" "n" ⟨2025, 1, 15, 10, 0, 0, 0⟩
        ⟨2025, 1, 15, 11, 0, 0, 0⟩ none = .ok l ∧
      List.Perm l (specCollect fsW "c" "n" ⟨2025, 1, 15, 10, 0, 0, 0⟩
        ⟨2025, 1, 15, 11, 0, 0, 0⟩ none) ∧
      l.Sorted tsLe ∧
      (∀ j ∈ hourRange (⟨2025, 1, 15, 10, 0, 0, 0⟩ : DateTime) ⟨2025, 1, 15, 11, 0, 0, 0⟩,
        fsW (bucketPath "c" "n" (idxToDT 2025 1 j)) = none →
          (bucketParsed fsW "c" "n" (idxToDT 2025 1 j)).filter
            (recInRange ⟨2025, 1, 15, 10, 0, 0, 0⟩ ⟨2025, 1, 15, 11, 0, 0, 0⟩ none) = []) ∧
      ((∀ j ∈ hourRange (⟨2025, 1, 15, 10, 0, 0, 0⟩ : DateTime) ⟨2025, 1, 15, 11, 0, 0, 0⟩,
          fsW (bucketPath "c" "n" (idxToDT 2025 1 j)) = none) →
        l = []) :=
  ⟨by decide, by decide, by decide, by decide,
    c2_query_contract fsW "c" "n" ⟨2025, 1, 15, 10, 0, 0, 0⟩ ⟨2025, 1, 15, 11, 0, 0, 0⟩
      none (by decide) (by decide) (by decide) (by decide) (by decide) (by decide)
      (by decide)⟩

/-- C2, original wording, refuted: a query whose window crosses a month
boundary raises `ValueError` from `current.replace(day=current.day + 1,
hour=0)` on the month's last day, even over an empty store. -/
theorem c2_monthend_counterexample :
    JsonMetricStorage.query FS.empty "c" "n" ⟨2025, 1, 31, 22, 0, 0, 0⟩
      ⟨2025, 2, 1, 1, 0, 0, 0⟩ none = .error .valueError := by decide

/-! ## Claim C1 -/

theorem hourIdx_mono (a b : DateTime) (h : dtLe a b)
    (hy : a.year = b.year) (hm : a.month = b.month)
    (ha1 : a.minute ≤ 59) (ha2 : a.second ≤ 59) (ha3 : a.microsecond ≤ 999999)
    (hb1 : b.minute ≤ 59) (hb2 : b.second ≤ 59) (hb3 : b.microsecond ≤ 999999) :
    hourIdx a ≤ hourIdx b := by
  cases a with
  | mk ay am ad ah ami ass aus =>
    cases b with
    | mk yy ym yd yh ymi yss yus =>
      simp only at hy hm ha1 ha2 ha3 hb1 hb2 hb3
      subst hy
      subst hm
      unfold dtLe dtKey at h
      unfold hourIdx
      simp only at h ⊢
      omega

theorem range'_flatMap_single {β : Type} (F : Nat → List β) (s n j0 : Nat)
    (hmem : s ≤ j0 ∧ j0 < s + n)
    (hzero : ∀ j, s ≤ j → j < s + n → j ≠ j0 → F j = []) :
    (List.range' s n).flatMap F = F j0 := by
  induction n generalizing s with
  | zero => omega
  | succ n ih =>
    rw [List.range'_succ, List.flatMap_cons]
    by_cases hs : s = j0
    · subst hs
      have hrest : (List.range' (s + 1) n).flatMap F = [] :=
        List.flatMap_eq_nil_iff.mpr (by
          intro j hj
          obtain ⟨k, hk, rfl⟩ := List.mem_range'.mp hj
          exact hzero _ (by omega) (by omega) (by omega))
      rw [hrest, List.append_nil]
    · rw [hzero s (le_refl s) (by omega) hs, List.nil_append]
      exact ih (s + 1) ⟨by omega, by omega⟩
        (fun j h1 h2 h3 => hzero j (by omega) (by omega) h3)

/-- The CSV header comment line parses to nothing. -/
theorem csv_header_skipped (cluster node : String) :
    csv_line_to_metric CSV_HEADER cluster node = none := rfl

/-- Over the file system produced by storing one same-hour batch, the
spec-side collection over a covering range is exactly the written records. -/
theorem specCollect_single_bucket (records : List MetricValue)
    (cluster node : String) (Y M D H : Nat) (start_time end_time : DateTime)
    (hbatch : sameBucketBatch records cluster node Y M D H)
    (hclean : ∀ mv ∈ records, cleanName mv.metric_name)
    (hcover : ∀ mv ∈ records, ∀ t, fromIso mv.timestamp = some t →
      dtLe start_time t ∧ dtLe t end_time)
    (hs : validDT start_time) (he : validDT end_time)
    (hys : start_time.year = Y) (hms : start_time.month = M)
    (hy : end_time.year = start_time.year) (hm : end_time.month = start_time.month)
    (hH : H ≤ 23) (hne : records ≠ []) :
    specCollect
      (FS.empty.update ⟨cluster, node, Y, M, D, H⟩
        (.lines (CSV_HEADER :: records.map metric_to_csv_line)))
      cluster node start_time end_time none = records.map toRecOut := by
  obtain ⟨hs1, hs2, hs3, hs4, hs5, hs6, hs7, hs8, hs9, hs10⟩ := hs
  obtain ⟨he1, he2, he3, he4, he5, he6, he7, he8, he9, he10⟩ := he
  rcases records with _ | ⟨mv0, rest⟩
  · exact absurd rfl hne
  obtain ⟨hc0, hn0, t0, hv0, hts0, hY0, hM0, hD0, hH0⟩ := hbatch mv0 (by simp)
  have hiso0 : fromIso mv0.timestamp = some t0 := by
    rw [hts0]
    exact fromIso_isoFormat hv0
  have hcov0 := hcover mv0 (by simp) t0 hiso0
  have hj0le : hourIdx start_time ≤ D * 24 + H := by
    have := hourIdx_mono start_time t0 hcov0.1 (by omega) (by omega)
      hs8 hs9 hs10 (by obtain ⟨_, _, _, _, _, _, _, h8, h9, h10⟩ := hv0; omega)
      (by obtain ⟨_, _, _, _, _, _, _, h8, h9, h10⟩ := hv0; omega)
      (by obtain ⟨_, _, _, _, _, _, _, h8, h9, h10⟩ := hv0; omega)
    unfold hourIdx at this ⊢
    omega
  have hj0ge : D * 24 + H ≤ hourIdx end_time := by
    have := hourIdx_mono t0 end_time hcov0.2 (by omega) (by omega)
      (by obtain ⟨_, _, _, _, _, _, _, h8, h9, h10⟩ := hv0; omega)
      (by obtain ⟨_, _, _, _, _, _, _, h8, h9, h10⟩ := hv0; omega)
      (by obtain ⟨_, _, _, _, _, _, _, h8, h9, h10⟩ := hv0; omega)
      he8 he9 he10
    unfold hourIdx at this ⊢
    omega
  unfold specCollect hourRange
  rw [List.flatMap_map]
  rw [hys, hms]
  rw [range'_flatMap_single _ _ _ (D * 24 + H) ⟨hj0le, by omega⟩ ?zero]
  case zero =>
    intro j _ _ hj
    have hpath : (bucketPath cluster node (idxToDT Y M j)) ≠
        (⟨cluster, node, Y, M, D, H⟩ : BucketPath) := by
      unfold bucketPath idxToDT
      simp only [ne_eq, BucketPath.mk.injEq, true_and]
      intro hcon
      omega
    unfold bucketParsed bucketLines
    rw [FS.update_other _ _ _ _ hpath]
    rfl
  · have hpath : (bucketPath cluster node (idxToDT Y M (D * 24 + H))) =
        (⟨cluster, node, Y, M, D, H⟩ : BucketPath) := by
      unfold bucketPath idxToDT
      simp only [BucketPath.mk.injEq, true_and]
      omega
    unfold bucketParsed bucketLines
    rw [hpath, FS.update_same]
    show ((CSV_HEADER :: (mv0 :: rest).map metric_to_csv_line).filterMap
      (fun line => csv_line_to_metric line cluster node)).filter
        (recInRange start_time end_time none) = _
    rw [show List.filterMap (fun line => csv_line_to_metric line cluster node)
        (CSV_HEADER :: (mv0 :: rest).map metric_to_csv_line) =
      List.filterMap (fun line => csv_line_to_metric line cluster node)
        ((mv0 :: rest).map metric_to_csv_line)
      from List.filterMap_cons_none (csv_header_skipped cluster node)]
    have hmain : ∀ ms : List MetricValue, sameBucketBatch ms cluster node Y M D H →
        (∀ mv ∈ ms, cleanName mv.metric_name) →
        (∀ mv ∈ ms, ∀ t, fromIso mv.timestamp = some t →
          dtLe start_time t ∧ dtLe t end_time) →
        (List.filterMap (fun line => csv_line_to_metric line cluster node)
          (ms.map metric_to_csv_line)).filter (recInRange start_time end_time none) =
          ms.map toRecOut := by
      intro ms
      induction ms with
      | nil => intro _ _ _; rfl
      | cons mv tail ihm =>
        intro hb hcl hcv
        obtain ⟨hcmv, hnmv, tmv, hvmv, htsmv, _, _, _, _⟩ := hb mv (by simp)
        have hisomv : fromIso mv.timestamp = some tmv := by
          rw [htsmv]
          exact fromIso_isoFormat hvmv
        have hcsv := csv_line_to_metric_roundtrip mv tmv cluster node
          (hcl mv (by simp)) htsmv
        simp only [List.map_cons]
        rw [show List.filterMap (fun line => csv_line_to_metric line cluster node)
            (metric_to_csv_line mv :: tail.map metric_to_csv_line) =
          ({ metric_name := mv.metric_name, timestamp := mv.timestamp,
             value := mv.value, node_name := node, cluster_name := cluster } : RecOut) ::
            List.filterMap (fun line => csv_line_to_metric line cluster node)
              (tail.map metric_to_csv_line)
          from List.filterMap_cons_some hcsv]
        rw [List.filter_cons]
        have hkeep : recInRange start_time end_time none
            ({ metric_name := mv.metric_name, timestamp := mv.timestamp,
               value := mv.value, node_name := node, cluster_name := cluster } : RecOut) =
            true := by
          unfold recInRange
          show (match fromIso mv.timestamp with
            | none => false
            | some mt => keepRecord start_time end_time none
                { metric_name := mv.metric_name, timestamp := mv.timestamp,
                  value := mv.value, node_name := node, cluster_name := cluster } mt) = true
          rw [hisomv]
          unfold keepRecord
          have hcvmv := hcv mv (by simp) tmv hisomv
          simp [hcvmv.1, hcvmv.2]
        rw [hkeep]
        simp only [if_true]
        rw [ihm (fun x hx => hb x (by simp [hx])) (fun x hx => hcl x (by simp [hx]))
          (fun x hx => hcv x (by simp [hx]))]
        unfold toRecOut
        rw [hcmv, hnmv]
    exact hmain (mv0 :: rest) hbatch hclean hcover

/-- The single-bucket store satisfies the timestamp-safety condition. -/
theorem wellTimestamped_single_bucket (records : List MetricValue)
    (cluster node : String) (Y M D H : Nat) (start_time end_time : DateTime)
    (hbatch : sameBucketBatch records cluster node Y M D H)
    (hclean : ∀ mv ∈ records, cleanName mv.metric_name) :
    wellTimestamped
      (FS.empty.update ⟨cluster, node, Y, M, D, H⟩
        (.lines (CSV_HEADER :: records.map metric_to_csv_line)))
      cluster node start_time end_time := by
  intro j _ line hline
  unfold bucketLines at hline
  by_cases hp : bucketPath cluster node
      (idxToDT start_time.year start_time.month j) =
      (⟨cluster, node, Y, M, D, H⟩ : BucketPath)
  · rw [hp, FS.update_same] at hline
    change line ∈ CSV_HEADER :: records.map metric_to_csv_line at hline
    rcases List.mem_cons.mp hline with rfl | hmem
    · unfold lineTimestampOk
      rw [csv_header_skipped]
    · obtain ⟨mv, hmv, rfl⟩ := List.mem_map.mp hmem
      obtain ⟨_, _, t, hvt, hts, _, _, _, _⟩ := hbatch mv hmv
      unfold lineTimestampOk
      rw [csv_line_to_metric_roundtrip mv t cluster node (hclean mv hmv) hts]
      show (fromIso mv.timestamp).isSome = true
      rw [hts, fromIso_isoFormat hvt]
      rfl
  · rw [FS.update_other _ _ _ _ hp] at hline
    exact absurd hline (List.not_mem_nil line)

/-- C1 (amended): writing N records that share a (cluster, node, UTC-hour)
bucket — each with a metric name free of separators, comment markers and
leading whitespace, an isoformat timestamp, and an integer value — and then
querying over any covering range that stays within the same calendar month
and short of the month's final hour, returns exactly those N records, each
field equal to what was written (the timestamp string verbatim), each record
exactly once (as a permutation).  (The original unconditional claim is
refuted by `c1_monthend_counterexample`: records in the last hour of a month
make every covering query raise `ValueError`.) -/
theorem c1_store_query_roundtrip (records : List MetricValue)
    (cluster node : String) (Y M D H : Nat) (start_time end_time : DateTime)
    (hbatch : sameBucketBatch records cluster node Y M D H)
    (hclean : ∀ mv ∈ records, cleanName mv.metric_name)
    (hcover : ∀ mv ∈ records, ∀ t, fromIso mv.timestamp = some t →
      dtLe start_time t ∧ dtLe t end_time)
    (hs : validDT start_time) (he : validDT end_time)
    (hys : start_time.year = Y) (hms : start_time.month = M)
    (hy : end_time.year = start_time.year) (hm : end_time.month = start_time.month)
    (hlast : hourIdx end_time < daysInMonth start_time.year start_time.month * 24 + 23) :
    ∃ fs, MetricStorage.store_batch FS.empty records = some fs ∧
      ∃ l, JsonMetricStorage.query fs cluster node start_time end_time none = .ok l ∧
        List.Perm l (records.map toRecOut) := by
  rcases hrec : records with _ | ⟨mv0, rest⟩
  · refine ⟨FS.empty, rfl, [], ?_, List.Perm.refl []⟩
    rw [query_characterization FS.empty cluster node start_time end_time none hs he
      hy hm hlast (by
        intro j _ line hline
        unfold bucketLines at hline
        exact absurd hline (List.not_mem_nil line))]
    have hnil : specCollect FS.empty cluster node start_time end_time none = [] := by
      unfold specCollect
      rw [List.flatMap_eq_nil_iff]
      intro tc _
      rfl
    rw [hnil]
    rfl
  · subst hrec
    obtain ⟨hc0, hn0, t0, hv0, hts0, hY0, hM0, hD0, hH0⟩ := hbatch mv0 (by simp)
    have hpB : bucketPath mv0.cluster_name mv0.node_name t0 =
        (⟨cluster, node, Y, M, D, H⟩ : BucketPath) := by
      unfold bucketPath
      rw [hc0, hn0, hY0, hM0, hD0, hH0]
    have hstore : MetricStorage.store_batch FS.empty (mv0 :: rest) =
        some (FS.empty.update ⟨cluster, node, Y, M, D, H⟩
          (.lines (CSV_HEADER :: (mv0 :: rest).map metric_to_csv_line))) := by
      unfold MetricStorage.store_batch
      simp only [List.foldlM_cons]
      rw [store_fresh FS.empty mv0 t0 hts0 hv0 rfl, hpB]
      rw [show (some (FS.empty.update (⟨cluster, node, Y, M, D, H⟩ : BucketPath)
          (.lines [CSV_HEADER, metric_to_csv_line mv0])) >>=
          fun fs2 => List.foldlM MetricStorage.store fs2 rest) =
        List.foldlM MetricStorage.store
          (FS.empty.update (⟨cluster, node, Y, M, D, H⟩ : BucketPath)
            (.lines [CSV_HEADER, metric_to_csv_line mv0])) rest from rfl]
      have := store_batch_same_bucket rest cluster node Y M D H
        (FS.empty.update ⟨cluster, node, Y, M, D, H⟩
          (.lines [CSV_HEADER, metric_to_csv_line mv0]))
        [CSV_HEADER, metric_to_csv_line mv0]
        (fun x hx => hbatch x (by simp [hx])) (FS.update_same _ _ _)
      unfold MetricStorage.store_batch at this
      rw [this, FS.update_update]
      rfl
    refine ⟨_, hstore, ?_⟩
    rw [query_characterization _ cluster node start_time end_time none hs he
      hy hm hlast (wellTimestamped_single_bucket (mv0 :: rest) cluster node Y M D H
        start_time end_time hbatch hclean)]
    refine ⟨_, rfl, ?_⟩
    rw [specCollect_single_bucket (mv0 :: rest) cluster node Y M D H start_time
      end_time hbatch hclean hcover
      (by exact ⟨hs.1, hs.2.1, hs.2.2.1, hs.2.2.2.1, hs.2.2.2.2.1, hs.2.2.2.2.2.1,
        hs.2.2.2.2.2.2.1, hs.2.2.2.2.2.2.2.1, hs.2.2.2.2.2.2.2.2.1,
        hs.2.2.2.2.2.2.2.2.2⟩)
      he hys hms hy hm (by
        obtain ⟨_, _, _, _, _, _, h7, _, _, _⟩ := hv0
        omega)
      (by simp)]
    exact List.perm_insertionSort tsLe _

theorem c1_store_query_roundtrip_witness :
    sameBucketBatch [mvA, mvB] "c" "n" 2025 1 15 10 ∧
    (∀ mv ∈ [mvA, mvB], cleanName mv.metric_name) ∧
    ∃ fs, MetricStorage.store_batch FS.empty [mvA, mvB] = some fs ∧
      ∃ l, JsonMetricStorage.query fs "c" "n" ⟨2025, 1, 15, 10, 0, 0, 0⟩
          ⟨2025, 1, 15, 11, 0, 0, 0⟩ none = .ok l ∧
        List.Perm l ([mvA, mvB].map toRecOut) := by
  have hbatch : sameBucketBatch [mvA, mvB] "c" "n" 2025 1 15 10 := by
    intro mv hmv
    simp only [List.mem_cons, List.not_mem_nil, or_false] at hmv
    rcases hmv with rfl | rfl
    · exact ⟨rfl, rfl, ⟨2025, 1, 15, 10, 5, 0, 0⟩, by decide, by decide, rfl, rfl,
        rfl, rfl⟩
    · exact ⟨rfl, rfl, ⟨2025, 1, 15, 10, 35, 0, 0⟩, by decide, by decide, rfl, rfl,
        rfl, rfl⟩
  refine ⟨hbatch, by decide, ?_⟩
  exact c1_store_query_roundtrip [mvA, mvB] "c" "n" 2025 1 15 10
    ⟨2025, 1, 15, 10, 0, 0, 0⟩ ⟨2025, 1, 15, 11, 0, 0, 0⟩ hbatch (by decide)
    (by
      intro mv hmv
      simp only [List.mem_cons, List.not_mem_nil, or_false] at hmv
      rcases hmv with rfl | rfl
      · intro t ht
        rw [show fromIso mvA.timestamp = some ⟨2025, 1, 15, 10, 5, 0, 0⟩ from by decide]
          at ht
        obtain rfl := (Option.some.inj ht)
        exact ⟨by decide, by decide⟩
      · intro t ht
        rw [show fromIso mvB.timestamp = some ⟨2025, 1, 15, 10, 35, 0, 0⟩ from by decide]
          at ht
        obtain rfl := (Option.some.inj ht)
        exact ⟨by decide, by decide⟩)
    (by decide) (by decide) rfl rfl rfl rfl (by decide)

/-- C1, original wording, refuted: a record written in the last hour of a
month cannot be read back — every query range covering its timestamp makes
the hour loop raise `ValueError` at the month end. -/
theorem c1_monthend_counterexample :
    (MetricStorage.store FS.empty mvCX).map
      (fun fs => JsonMetricStorage.query fs "c" "n" ⟨2025, 1, 31, 23, 10, 0, 0⟩
        ⟨2025, 1, 31, 23, 10, 0, 0⟩ none) = some (.error .valueError) := by decide

/-! ## Claim C3 -/

/-- C3 (amended): recoverable corruption is isolated per file.  Over a
same-month range clear of the month's final hour, if one visited hour bucket
is unreadable (`IOError`, caught per file) or every line in it fails CSV
parsing (malformed lines and non-numeric values are skipped per line), that
bucket contributes no records, and `query` still succeeds and returns exactly
the valid records of all the visited buckets, sorted by timestamp.  (The
original claim's "without aborting the whole query" is refuted by
`c3_bad_timestamp_counterexample`: a CSV-valid line whose timestamp
`datetime.fromisoformat` rejects raises `ValueError`, which the per-file
handler — catching only `IOError` — does not stop, aborting the query.) -/
theorem c3_corrupt_file_isolation (fs : FS) (cluster node : String)
    (start_time end_time : DateTime) (mn : Option String)
    (hs : validDT start_time) (he : validDT end_time)
    (hy : end_time.year = start_time.year) (hm : end_time.month = start_time.month)
    (hlast : hourIdx end_time < daysInMonth start_time.year start_time.month * 24 + 23)
    (hwt : wellTimestamped fs cluster node start_time end_time)
    (j0 : Nat)
    (hbad : fs (bucketPath cluster node (idxToDT start_time.year start_time.month j0)) =
        some .unreadable ∨
      ∀ line ∈ bucketLines fs cluster node (idxToDT start_time.year start_time.month j0),
        csv_line_to_metric line cluster node = none) :
    bucketParsed fs cluster node (idxToDT start_time.year start_time.month j0) = [] ∧
    JsonMetricStorage.query fs cluster node start_time end_time mn =
      .ok (List.insertionSort tsLe (specCollect fs cluster node start_time end_time mn)) := by
  refine ⟨?_, query_characterization fs cluster node start_time end_time mn
    hs he hy hm hlast hwt⟩
  unfold bucketParsed
  rcases hbad with h | h
  · unfold bucketLines
    rw [h]
    rfl
  · rw [List.filterMap_eq_nil_iff]
    exact h

/-- C3 witness: a store whose hour-11 bucket holds only unparsable lines and
whose hour-10 bucket holds one good record; the corrupt bucket parses to
nothing while the query still returns the good record. -/
theorem c3_corrupt_file_isolation_witness :
    (bucketParsed fsC3 "c" "n" (idxToDT 2025 1 (15 * 24 + 11)) = [] ∧
      JsonMetricStorage.query fsC3 "c" "n" ⟨2025, 1, 15, 10, 0, 0, 0⟩
        ⟨2025, 1, 15, 11, 30, 0, 0⟩ none =
        .ok (List.insertionSort tsLe (specCollect fsC3 "c" "n"
          ⟨2025, 1, 15, 10, 0, 0, 0⟩ ⟨2025, 1, 15, 11, 30, 0, 0⟩ none))) ∧
    specCollect fsC3 "c" "n" ⟨2025, 1, 15, 10, 0, 0, 0⟩
      ⟨2025, 1, 15, 11, 30, 0, 0⟩ none ≠ [] :=
  ⟨c3_corrupt_file_isolation fsC3 "c" "n"
    ⟨2025, 1, 15, 10, 0, 0, 0⟩ ⟨2025, 1, 15, 11, 30, 0, 0⟩ none
    (by decide) (by decide) rfl rfl (by decide) (by decide)
    (15 * 24 + 11) (Or.inr (by decide)), by decide⟩

/-- C3, original wording, refuted: a CSV-valid line whose timestamp does not
parse makes the whole query raise `ValueError` — only `IOError` is caught
per file, so this corruption is not skipped. -/
theorem c3_bad_timestamp_counterexample :
    JsonMetricStorage.query fsC3bad "c" "n"
      ⟨2025, 1, 15, 10, 0, 0, 0⟩ ⟨2025, 1, 15, 11, 30, 0, 0⟩ none =
      .error .valueError := by decide

/-! ## Claim C9 -/

/-- C9 (amended): for a valid instant `now` that is neither in the last hour
of its month (`day = daysInMonth ∧ hour = 23`) nor in the first hour of the
month's first day (`day = 1 ∧ hour = 0`), over well-timestamped buckets,
`get_latest` queries the window from the top of the current hour to `now`;
if that yields records it returns them, and otherwise it falls back to the
previous whole hour, whose query also succeeds.  (The original claim's
unconditional behaviour is refuted by `c9_get_latest_counterexample`: at the
month's last hour the current-hour query itself raises `ValueError` from the
hour rollover, and at `day = 1, hour = 0` the `replace(day=day-1)` fallback
raises `ValueError` — both with no files stored at all.) -/
theorem c9_get_latest_two_windows (fs : FS) (cluster node : String)
    (mn : Option String) (now : DateTime)
    (hv : validDT now)
    (h23 : ¬(now.day = daysInMonth now.year now.month ∧ now.hour = 23))
    (h10 : ¬(now.day = 1 ∧ now.hour = 0))
    (hwt1 : wellTimestamped fs cluster node (floorHour now) now)
    (hwt2 : wellTimestamped fs cluster node (prevHour now) (floorHour now)) :
    ∃ l1, JsonMetricStorage.query fs cluster node (floorHour now) now mn = .ok l1 ∧
      (l1 ≠ [] → JsonMetricStorage.get_latest fs cluster node mn now = .ok l1) ∧
      (l1 = [] →
        ∃ l2, JsonMetricStorage.query fs cluster node (prevHour now)
            (floorHour now) mn = .ok l2 ∧
          JsonMetricStorage.get_latest fs cluster node mn now = .ok l2) := by
  obtain ⟨h1, h2, h3, h4, h5, h6, h7, h8, h9, h10m⟩ := id hv
  have hfl : floorHour now = ⟨now.year, now.month, now.day, now.hour, 0, 0, 0⟩ := rfl
  rw [hfl] at hwt1 hwt2 ⊢
  have hvf : validDT (⟨now.year, now.month, now.day, now.hour, 0, 0, 0⟩ : DateTime) :=
    ⟨h1, h2, h3, h4, h5, h6, h7, Nat.zero_le 59, Nat.zero_le 59, Nat.zero_le 999999⟩
  have hlast1 : hourIdx now <
      daysInMonth now.year now.month * 24 + 23 := by
    unfold hourIdx
    omega
  have hq1 := query_characterization fs cluster node
    ⟨now.year, now.month, now.day, now.hour, 0, 0, 0⟩ now mn hvf hv rfl rfl hlast1 hwt1
  refine ⟨_, hq1, fun hne => ?_, fun hnil => ?_⟩
  · simp only [JsonMetricStorage.get_latest, hfl, hq1]
    rw [if_neg hne]
  · have hlast2 : hourIdx (⟨now.year, now.month, now.day, now.hour, 0, 0, 0⟩ : DateTime) <
        daysInMonth now.year now.month * 24 + 23 := by
      unfold hourIdx
      show now.day * 24 + now.hour < daysInMonth now.year now.month * 24 + 23
      omega
    by_cases hpos : 0 < now.hour
    · have hprev : prevHour now =
          ⟨now.year, now.month, now.day, now.hour - 1, 0, 0, 0⟩ := by
        unfold prevHour
        rw [if_pos hpos]
        rfl
      rw [hprev] at hwt2 ⊢
      have hvp : validDT
          (⟨now.year, now.month, now.day, now.hour - 1, 0, 0, 0⟩ : DateTime) :=
        ⟨h1, h2, h3, h4, h5, h6, show now.hour - 1 ≤ 23 by omega,
          Nat.zero_le 59, Nat.zero_le 59, Nat.zero_le 999999⟩
      have hq2 := query_characterization fs cluster node
        ⟨now.year, now.month, now.day, now.hour - 1, 0, 0, 0⟩
        ⟨now.year, now.month, now.day, now.hour, 0, 0, 0⟩ mn hvp hvf rfl rfl hlast2 hwt2
      refine ⟨_, hq2, ?_⟩
      simp only [JsonMetricStorage.get_latest, hfl, hq1]
      rw [if_pos hnil, if_pos hpos]
      exact hq2
    · have hd2 : 2 ≤ now.day := by omega
      have hprev : prevHour now =
          ⟨now.year, now.month, now.day - 1, 23, 0, 0, 0⟩ := by
        unfold prevHour
        rw [if_neg hpos]
        rfl
      rw [hprev] at hwt2 ⊢
      have hvp : validDT
          (⟨now.year, now.month, now.day - 1, 23, 0, 0, 0⟩ : DateTime) :=
        ⟨h1, h2, h3, h4, show 1 ≤ now.day - 1 by omega,
          show now.day - 1 ≤ daysInMonth now.year now.month by omega,
          Nat.le_refl 23, Nat.zero_le 59, Nat.zero_le 59, Nat.zero_le 999999⟩
      have hq2 := query_characterization fs cluster node
        ⟨now.year, now.month, now.day - 1, 23, 0, 0, 0⟩
        ⟨now.year, now.month, now.day, now.hour, 0, 0, 0⟩ mn hvp hvf rfl rfl hlast2 hwt2
      refine ⟨_, hq2, ?_⟩
      simp only [JsonMetricStorage.get_latest, hfl, hq1]
      rw [if_pos hnil, if_neg hpos, if_pos (show 1 ≤ now.day - 1 by omega)]
      exact hq2

/-- C9 witness: with a record stored at 10:30 and `now = 10:45` on an ordinary
day, the current-hour query succeeds and `get_latest` returns its records. -/
theorem c9_get_latest_two_windows_witness :
    ∃ l1, JsonMetricStorage.query fsW "c" "n" (floorHour ⟨2025, 1, 15, 10, 45, 0, 0⟩)
        ⟨2025, 1, 15, 10, 45, 0, 0⟩ none = .ok l1 ∧
      (l1 ≠ [] →
        JsonMetricStorage.get_latest fsW "c" "n" none ⟨2025, 1, 15, 10, 45, 0, 0⟩ =
          .ok l1) ∧
      (l1 = [] →
        ∃ l2, JsonMetricStorage.query fsW "c" "n" (prevHour ⟨2025, 1, 15, 10, 45, 0, 0⟩)
            (floorHour ⟨2025, 1, 15, 10, 45, 0, 0⟩) none = .ok l2 ∧
          JsonMetricStorage.get_latest fsW "c" "n" none ⟨2025, 1, 15, 10, 45, 0, 0⟩ =
            .ok l2) :=
  c9_get_latest_two_windows fsW "c" "n" none ⟨2025, 1, 15, 10, 45, 0, 0⟩
    (by decide) (by decide) (by decide) (by decide) (by decide)

/-- C9, original wording, refuted: even with no files stored, `get_latest`
raises `ValueError` in the last hour of a month (from the current-hour
query's rollover) and in the first hour of a month's first day (from the
`replace(day=day-1)` fallback). -/
theorem c9_get_latest_counterexample :
    JsonMetricStorage.get_latest FS.empty "c" "n" none ⟨2025, 1, 31, 23, 30, 0, 0⟩ =
      .error .valueError ∧
    JsonMetricStorage.get_latest FS.empty "c" "n" none ⟨2025, 2, 1, 0, 30, 0, 0⟩ =
      .error .valueError := by decide

/-! ## Claim C6 -/

/-- C6 (amended): `collect` never raises — every probe outcome, exceptions
included, yields a record (modelled by `collect` being total on
`ProbeOutcome`) — and the record's value is 1 iff the probe returned a
response with status code 200 whose body, stripped of surrounding
whitespace, is "Ok."; every other outcome yields value 0.  The record
carries the given node and cluster names and metric name
"clickhouse_status".  (The original "body \"Ok.\"" is refuted by
`c6_strip_counterexample`: the body "Ok.\n" also yields value 1, because the
code compares `response.text.strip()`, not the exact body.) -/
theorem c6_collect_contract (outcome : ProbeOutcome)
    (node_name cluster_name metric_id nowIso : String) :
    ((ClickHouseStatusCollector.collect outcome node_name cluster_name
        metric_id nowIso).value = 1 ↔
      ∃ code text, outcome = .response code text ∧ code = 200 ∧
        pyStrip text = "Ok.") ∧
    ((ClickHouseStatusCollector.collect outcome node_name cluster_name
        metric_id nowIso).value = 1 ∨
      (ClickHouseStatusCollector.collect outcome node_name cluster_name
        metric_id nowIso).value = 0) ∧
    (ClickHouseStatusCollector.collect outcome node_name cluster_name
      metric_id nowIso).node_name = node_name ∧
    (ClickHouseStatusCollector.collect outcome node_name cluster_name
      metric_id nowIso).cluster_name = cluster_name ∧
    (ClickHouseStatusCollector.collect outcome node_name cluster_name
      metric_id nowIso).metric_name = "clickhouse_status" ∧
    (ClickHouseStatusCollector.collect outcome node_name cluster_name
      metric_id nowIso).timestamp = nowIso := by
  cases outcome with
  | exn =>
    refine ⟨?_, Or.inr rfl, rfl, rfl, rfl, rfl⟩
    constructor
    · intro h
      exact absurd h (show ¬(0 : Int) = 1 from by decide)
    · rintro ⟨code, text, h, -, -⟩
      exact ProbeOutcome.noConfusion h
  | response code text =>
    refine ⟨?_, ?_, rfl, rfl, rfl, rfl⟩
    · by_cases h : code = 200 ∧ pyStrip text = "Ok."
      · constructor
        · intro _
          exact ⟨code, text, rfl, h.1, h.2⟩
        · intro _
          show (if (code = 200 : Bool) && (pyStrip text = "Ok." : Bool)
            then (1 : Int) else 0) = 1
          rw [if_pos]
          simp only [Bool.and_eq_true, decide_eq_true_eq]
          exact h
      · constructor
        · intro hv
          exfalso
          revert hv
          show (if (code = 200 : Bool) && (pyStrip text = "Ok." : Bool)
            then (1 : Int) else 0) = 1 → False
          rw [if_neg]
          · intro hc
            exact absurd hc (by decide)
          · simp only [Bool.and_eq_true, decide_eq_true_eq]
            exact h
        · rintro ⟨c, t, heq, hc, ht⟩
          obtain ⟨rfl, rfl⟩ := ProbeOutcome.response.injEq code text c t ▸ heq
          exact absurd ⟨hc, ht⟩ h
    · by_cases h : code = 200 ∧ pyStrip text = "Ok."
      · left
        show (if (code = 200 : Bool) && (pyStrip text = "Ok." : Bool)
          then (1 : Int) else 0) = 1
        rw [if_pos]
        simp only [Bool.and_eq_true, decide_eq_true_eq]
        exact h
      · right
        show (if (code = 200 : Bool) && (pyStrip text = "Ok." : Bool)
          then (1 : Int) else 0) = 0
        rw [if_neg]
        simp only [Bool.and_eq_true, decide_eq_true_eq]
        exact h

/-- C6, original wording, refuted: a 200 response whose body is "Ok." plus a
trailing newline — not the exact body "Ok." — still yields value 1, because
the code strips the body before comparing. -/
theorem c6_strip_counterexample :
    (ClickHouseStatusCollector.collect (.response 200 "Ok.\n") "n" "c" "i" "t").value
      = 1 ∧ ("Ok.\n" : String) ≠ "Ok." := by decide

/-! ## Claim C4 -/

theorem timelineLoop_length (ms : List RecOut) : ∀ p : Option Int,
    (timelineLoop p ms).length = ms.length := by
  induction ms with
  | nil => intro p; rfl
  | cons m rest ih =>
    intro p
    simp only [timelineLoop, List.length_cons]
    rw [ih (some m.value)]

theorem timelineLoop_status (ms : List RecOut) : ∀ p : Option Int,
    (timelineLoop p ms).map TimelineEntry.status = ms.map RecOut.value := by
  induction ms with
  | nil => intro p; rfl
  | cons m rest ih =>
    intro p
    simp only [timelineLoop, List.map_cons]
    rw [ih (some m.value)]

theorem timelineLoop_timestamp (ms : List RecOut) : ∀ p : Option Int,
    (timelineLoop p ms).map TimelineEntry.timestamp = ms.map RecOut.timestamp := by
  induction ms with
  | nil => intro p; rfl
  | cons m rest ih =>
    intro p
    simp only [timelineLoop, List.map_cons]
    rw [ih (some m.value)]

theorem timelineLoop_mem (ms : List RecOut) : ∀ p : Option Int,
    ∀ e ∈ timelineLoop p ms,
      e.status_text = (if e.status = 1 then "健康" else "离线") ∧
      e.change_type =
        (if e.changed then some (if e.status = 1 then "恢复" else "故障") else none) := by
  induction ms with
  | nil =>
    intro p e he
    exact absurd he (List.not_mem_nil e)
  | cons m rest ih =>
    intro p e he
    simp only [timelineLoop, List.mem_cons] at he
    rcases he with rfl | he
    · exact ⟨rfl, rfl⟩
    · exact ih (some m.value) e he

theorem timelineLoop_adjacent (ms : List RecOut) : ∀ (p : Option Int) (i : Nat)
    (e e' : TimelineEntry),
    (timelineLoop p ms).get? i = some e →
    (timelineLoop p ms).get? (i + 1) = some e' →
    (e'.changed = true ↔ e'.status ≠ e.status) := by
  induction ms with
  | nil =>
    intro p i e e' h1 _
    simp [timelineLoop] at h1
  | cons m rest ih =>
    intro p i e e' h1 h2
    cases i with
    | zero =>
      simp only [timelineLoop, List.get?] at h1 h2
      obtain rfl := Option.some.inj h1
      cases rest with
      | nil => simp [timelineLoop] at h2
      | cons m2 rest2 =>
        simp only [timelineLoop, List.get?] at h2
        obtain rfl := Option.some.inj h2
        simp only [decide_eq_true_eq]
    | succ j =>
      simp only [timelineLoop, List.get?] at h1 h2
      exact ih (some m.value) j e e' h1 h2

/-- C4 (confirmed): the timeline has one entry per record in input order,
preserving timestamps and statuses; the status text is the healthy marker
exactly for status 1; the first entry has `changed = false`; each later
entry has `changed` true iff its status differs from the previous entry's;
`change_type` is `none` when unchanged and otherwise the recovery marker for
status 1 and the failure marker for any other status; for input statuses
`[1, 1, 0, 0, 1]` the changed flags are `[false, false, true, false, true]`
and the change types of the changed entries are failure then recovery. -/
theorem c4_build_timeline (ms : List RecOut) :
    (timelineLoop none ms).length = ms.length ∧
    (timelineLoop none ms).map TimelineEntry.status = ms.map RecOut.value ∧
    (timelineLoop none ms).map TimelineEntry.timestamp = ms.map RecOut.timestamp ∧
    (∀ e, (timelineLoop none ms).head? = some e → e.changed = false) ∧
    (∀ (i : Nat) (e e' : TimelineEntry),
      (timelineLoop none ms).get? i = some e →
      (timelineLoop none ms).get? (i + 1) = some e' →
      (e'.changed = true ↔ e'.status ≠ e.status)) ∧
    (∀ e ∈ timelineLoop none ms,
      e.status_text = (if e.status = 1 then "健康" else "离线") ∧
      e.change_type =
        (if e.changed then some (if e.status = 1 then "恢复" else "故障") else none)) ∧
    ((timelineLoop none
        [⟨"clickhouse_status", "t1", 1, "n", "c"⟩,
         ⟨"clickhouse_status", "t2", 1, "n", "c"⟩,
         ⟨"clickhouse_status", "t3", 0, "n", "c"⟩,
         ⟨"clickhouse_status", "t4", 0, "n", "c"⟩,
         ⟨"clickhouse_status", "t5", 1, "n", "c"⟩]).map TimelineEntry.changed =
      [false, false, true, false, true] ∧
     ((timelineLoop none
        [⟨"clickhouse_status", "t1", 1, "n", "c"⟩,
         ⟨"clickhouse_status", "t2", 1, "n", "c"⟩,
         ⟨"clickhouse_status", "t3", 0, "n", "c"⟩,
         ⟨"clickhouse_status", "t4", 0, "n", "c"⟩,
         ⟨"clickhouse_status", "t5", 1, "n", "c"⟩]).filterMap
          TimelineEntry.change_type = ["故障", "恢复"])) := by
  refine ⟨timelineLoop_length ms none, timelineLoop_status ms none,
    timelineLoop_timestamp ms none, ?_, ?_, timelineLoop_mem ms none, by decide, by decide⟩
  · intro e he
    cases ms with
    | nil => exact absurd he (by simp [timelineLoop])
    | cons m rest =>
      simp only [timelineLoop, List.head?] at he
      obtain rfl := Option.some.inj he
      rfl
  · exact timelineLoop_adjacent ms none

/-! ## Claim C5 -/

/-- C5 (confirmed): for every timeline, `total_checks` is the timeline
length, `healthy_count` counts the entries with status 1, `unhealthy_count`
is their difference, `status_changes` is exactly the entries with
`changed = true`, `current_status` is the status text of the last entry
(`none` when empty), `first_check`/`last_check` are the first/last
timestamps, and on a non-empty timeline `availability_percent` is
`round(healthy/total*100, 2)`; the empty timeline yields the all-zero
summary with `current_status = none` and no division is performed. -/
theorem c5_summarize (node_name cluster_name : String)
    (timeline : List TimelineEntry) :
    (summarizeTimeline node_name cluster_name timeline).total_checks =
      timeline.length ∧
    (summarizeTimeline node_name cluster_name timeline).healthy_count =
      (timeline.filter (fun t => t.status = 1)).length ∧
    (summarizeTimeline node_name cluster_name timeline).unhealthy_count =
      timeline.length - (timeline.filter (fun t => t.status = 1)).length ∧
    (timeline ≠ [] →
      (summarizeTimeline node_name cluster_name timeline).availability_percent =
        pyRound2 (((timeline.filter (fun t => t.status = 1)).length : ℚ) /
          (timeline.length : ℚ) * 100)) ∧
    (summarizeTimeline node_name cluster_name timeline).status_changes =
      timeline.filter (fun t => t.changed) ∧
    (summarizeTimeline node_name cluster_name timeline).current_status =
      (timeline.getLast?).map (fun e => e.status_text) ∧
    (summarizeTimeline node_name cluster_name timeline).first_check =
      (timeline.head?).map (fun e => e.timestamp) ∧
    (summarizeTimeline node_name cluster_name timeline).last_check =
      (timeline.getLast?).map (fun e => e.timestamp) ∧
    (timeline = [] →
      summarizeTimeline node_name cluster_name timeline =
        { node_name := node_name, cluster_name := cluster_name, total_checks := 0,
          healthy_count := 0, unhealthy_count := 0, availability_percent := 0,
          status_changes := [], current_status := none,
          first_check := none, last_check := none }) := by
  by_cases h : timeline = []
  · subst h
    exact ⟨rfl, rfl, rfl, fun hne => absurd rfl hne, rfl, rfl, rfl, rfl, fun _ => rfl⟩
  · have hs : summarizeTimeline node_name cluster_name timeline =
        { node_name := node_name, cluster_name := cluster_name,
          total_checks := timeline.length,
          healthy_count := (timeline.filter (fun t => t.status = 1)).length,
          unhealthy_count :=
            timeline.length - (timeline.filter (fun t => t.status = 1)).length,
          availability_percent :=
            if timeline ≠ [] then
              pyRound2 (((timeline.filter (fun t => t.status = 1)).length : ℚ) /
                (timeline.length : ℚ) * 100)
            else 0,
          status_changes := timeline.filter (fun t => t.changed),
          current_status :=
            if timeline ≠ [] then (timeline.getLast?).map (fun e => e.status_text)
            else none,
          first_check :=
            if timeline ≠ [] then (timeline.head?).map (fun e => e.timestamp)
            else none,
          last_check :=
            if timeline ≠ [] then (timeline.getLast?).map (fun e => e.timestamp)
            else none } := by
      unfold summarizeTimeline
      rw [if_neg h]
    rw [hs]
    refine ⟨rfl, rfl, rfl, fun _ => ?_, rfl, ?_, ?_, ?_, fun he => absurd he h⟩
    · show (if timeline ≠ [] then
          pyRound2 (((timeline.filter (fun t => t.status = 1)).length : ℚ) /
            (timeline.length : ℚ) * 100)
        else 0) = _
      rw [if_pos h]
    · show (if timeline ≠ [] then (timeline.getLast?).map (fun e => e.status_text)
          else none) = _
      rw [if_pos h]
    · show (if timeline ≠ [] then (timeline.head?).map (fun e => e.timestamp)
          else none) = _
      rw [if_pos h]
    · show (if timeline ≠ [] then (timeline.getLast?).map (fun e => e.timestamp)
          else none) = _
      rw [if_pos h]

/-- C5 witness: the summary of a concrete three-entry timeline with statuses
`[1, 0, 1]`, instantiating every conjunct of the summary contract. -/
theorem c5_summarize_witness :
    (summarizeTimeline "n" "c"
        [⟨"t1", 1, "健康", false, none⟩,
         ⟨"t2", 0, "离线", true, some "故障"⟩,
         ⟨"t3", 1, "健康", true, some "恢复"⟩]).total_checks = 3 ∧
    (summarizeTimeline "n" "c"
        [⟨"t1", 1, "健康", false, none⟩,
         ⟨"t2", 0, "离线", true, some "故障"⟩,
         ⟨"t3", 1, "健康", true, some "恢复"⟩]).availability_percent =
      pyRound2 ((2 : ℚ) / 3 * 100) := by
  obtain ⟨h1, -, -, h4, -⟩ := c5_summarize "n" "c"
    [⟨"t1", 1, "健康", false, none⟩,
     ⟨"t2", 0, "离线", true, some "故障"⟩,
     ⟨"t3", 1, "健康", true, some "恢复"⟩]
  refine ⟨h1, ?_⟩
  rw [h4 (by decide)]
  norm_num

/-! ## Alert-layer lemmas -/

theorem runActions_ids (alert : AlertEvent) (acts : List AlertAction) :
    runActions alert acts = acts.map AlertAction.id := by
  induction acts with
  | nil => rfl
  | cons a rest ih =>
    unfold runActions
    cases hx : a.execute with
    | ok b => rw [List.map_cons, ih]
    | error e => rw [List.map_cons, ih]

theorem evaluate_eq_opHolds (r : AlertRule) (v : ℚ) :
    r.evaluate v = true ↔
      (r.operator ∈ [">", "<", ">=", "<=", "==", "!="] ∧
        opHolds r.operator v r.threshold) := by
  unfold AlertRule.evaluate
  split
  case _ heq => simp [heq, opHolds]
  case _ heq => simp [heq, opHolds]
  case _ heq => simp [heq, opHolds]
  case _ heq => simp [heq, opHolds]
  case _ heq => simp [heq, opHolds]
  case _ heq => simp [heq, opHolds]
  case _ h1 h2 h3 h4 h5 h6 =>
    simp only [Bool.false_eq_true, false_iff, not_and]
    intro hmem
    simp only [List.mem_cons, List.not_mem_nil, or_false] at hmem
    rcases hmem with h | h | h | h | h | h <;> simp_all

theorem should_trigger_iff (r : AlertRule) (nk : String) (now : ℚ) :
    r.should_trigger nk now = true ↔ (r.enabled = true ∧ cooldownOk r nk now) := by
  unfold AlertRule.should_trigger cooldownOk
  by_cases henb : r.enabled = true
  · rw [henb]
    cases hlt : r.last_triggered nk with
    | none => simp [hlt]
    | some last => simp [hlt, decide_eq_true_eq]
  · have henb' : r.enabled = false := by
      cases hx : r.enabled
      · rfl
      · exact absurd hx henb
    rw [henb']
    simp

theorem ruleFires_iff (r : AlertRule) (mn : String) (mv : ℚ) (nk : String)
    (now : ℚ) :
    ruleFires r mn mv nk now = true ↔
      (r.enabled = true ∧ r.metric = mn ∧
        r.operator ∈ [">", "<", ">=", "<=", "==", "!="] ∧
        opHolds r.operator mv r.threshold ∧ cooldownOk r nk now) := by
  unfold ruleFires
  simp only [Bool.and_eq_true, decide_eq_true_eq, evaluate_eq_opHolds,
    should_trigger_iff]
  tauto

theorem ruleFires_skip_iff (r : AlertRule) (mn : String) (mv : ℚ) (nk : String)
    (now : ℚ) :
    ruleFires r mn mv nk now = true ↔
      ¬(r.metric ≠ mn ∨ r.evaluate mv = false ∨
        r.should_trigger nk now = false) := by
  unfold ruleFires
  simp only [Bool.and_eq_true, decide_eq_true_eq, not_or, not_not,
    Bool.not_eq_false]
  tauto

theorem evalRules_spec (mn : String) (mv : ℚ) (nn cn nk : String) (now : ℚ)
    (rules : List AlertRule) :
    evalRules mn mv nn cn nk now rules =
      (rules.map (fun r =>
        if ruleFires r mn mv nk now = true then r.mark_triggered nk now else r),
       (rules.filter (fun r => ruleFires r mn mv nk now)).map
         (fun r => mkAlertEvent r mn mv nn cn nk now),
       (rules.filter (fun r => ruleFires r mn mv nk now)).flatMap
         (fun r => r.actions.map AlertAction.id)) := by
  induction rules with
  | nil => rfl
  | cons rule rest ih =>
    by_cases h : rule.metric ≠ mn ∨ rule.evaluate mv = false ∨
        rule.should_trigger nk now = false
    · have hf : ruleFires rule mn mv nk now = false := by
        cases hx : ruleFires rule mn mv nk now
        · rfl
        · exact absurd h ((ruleFires_skip_iff rule mn mv nk now).mp hx)
      simp only [evalRules]
      rw [if_pos h, ih]
      simp only [List.map_cons, List.filter_cons, hf, Bool.false_eq_true,
        if_false]
    · have hf : ruleFires rule mn mv nk now = true :=
        (ruleFires_skip_iff rule mn mv nk now).mpr h
      simp only [evalRules]
      rw [if_neg h, ih, runActions_ids]
      simp only [List.map_cons, List.filter_cons, hf, if_true, List.flatMap_cons]

/-! ## Claim C7 -/

/-- C7 (confirmed): `evaluate_metric` fires a rule iff the rule is enabled,
its metric equals the evaluated metric name, its operator is one of the six
supported comparison operators and holds of (value, threshold) — an unknown
operator never fires and raises no error — and the key
`cluster_name/node_name` is out of cooldown (never triggered, or at least
`cooldown_seconds` elapsed).  The returned events are exactly the fired
rules' events in rule order (so one value can fire several rules in one
call), every event is appended to the history, each fired rule's
`last_triggered` for the key is set to `now`, and a fired rule cannot fire
again within its cooldown window. -/
theorem c7_evaluate_metric (mgr : AlertManager) (metric_name : String)
    (metric_value : ℚ) (node_name cluster_name : String) (now : ℚ) :
    (mgr.evaluate_metric metric_name metric_value node_name cluster_name now).2.1 =
      (mgr.rules.filter (fun r => ruleFires r metric_name metric_value
        (cluster_name ++ "/" ++ node_name) now)).map
        (fun r => mkAlertEvent r metric_name metric_value node_name cluster_name
          (cluster_name ++ "/" ++ node_name) now) ∧
    (mgr.evaluate_metric metric_name metric_value node_name cluster_name
        now).1.alert_history =
      mgr.alert_history ++
        (mgr.evaluate_metric metric_name metric_value node_name cluster_name
          now).2.1 ∧
    (mgr.evaluate_metric metric_name metric_value node_name cluster_name
        now).1.rules =
      mgr.rules.map (fun r =>
        if ruleFires r metric_name metric_value
            (cluster_name ++ "/" ++ node_name) now = true then
          r.mark_triggered (cluster_name ++ "/" ++ node_name) now
        else r) ∧
    (∀ r : AlertRule,
      ruleFires r metric_name metric_value (cluster_name ++ "/" ++ node_name)
          now = true ↔
        (r.enabled = true ∧ r.metric = metric_name ∧
          r.operator ∈ [">", "<", ">=", "<=", "==", "!="] ∧
          opHolds r.operator metric_value r.threshold ∧
          cooldownOk r (cluster_name ++ "/" ++ node_name) now)) ∧
    (∀ (now2 : ℚ) (r : AlertRule),
      ruleFires r metric_name metric_value (cluster_name ++ "/" ++ node_name)
          now = true →
      now2 - now < (r.cooldown_seconds : ℚ) →
      ruleFires (r.mark_triggered (cluster_name ++ "/" ++ node_name) now)
        metric_name metric_value (cluster_name ++ "/" ++ node_name) now2 =
        false) := by
  have hev := evalRules_spec metric_name metric_value node_name cluster_name
    (cluster_name ++ "/" ++ node_name) now mgr.rules
  refine ⟨?_, ?_, ?_,
    fun r => ruleFires_iff r metric_name metric_value
      (cluster_name ++ "/" ++ node_name) now, ?_⟩
  · simp only [AlertManager.evaluate_metric, hev]
  · simp only [AlertManager.evaluate_metric, hev]
  · simp only [AlertManager.evaluate_metric, hev]
  · intro now2 r hf hlt
    cases hx : ruleFires (r.mark_triggered (cluster_name ++ "/" ++ node_name) now)
        metric_name metric_value (cluster_name ++ "/" ++ node_name) now2 with
    | false => rfl
    | true =>
      exfalso
      have hco := ((ruleFires_iff _ _ _ _ _).mp hx).2.2.2.2
      unfold cooldownOk at hco
      have hl : (r.mark_triggered (cluster_name ++ "/" ++ node_name)
            now).last_triggered (cluster_name ++ "/" ++ node_name) = some now := by
        show (if cluster_name ++ "/" ++ node_name = cluster_name ++ "/" ++ node_name
            then some now
            else r.last_triggered (cluster_name ++ "/" ++ node_name)) = some now
        rw [if_pos rfl]
      rcases hco with hnone | ⟨last, hsome, hge⟩
      · rw [hl] at hnone
        exact Option.noConfusion hnone
      · rw [hl] at hsome
        obtain rfl := Option.some.inj hsome
        exact absurd hge (not_le.mpr hlt)

/-- C7 witness: a single enabled `>`-rule on metric "cpu" with threshold 50
and no prior trigger fires on value 75 and yields exactly its event. -/
theorem c7_evaluate_metric_witness :
    (AlertManager.evaluate_metric
        ⟨[⟨"r1", "cpu", ">", 50, "critical",
            [⟨"a1", .succeeded⟩, ⟨"a2", .raised⟩], true, 300, fun _ => none⟩], []⟩
        "cpu" 75 "node1" "cl" 1000).2.1 =
      [mkAlertEvent
        ⟨"r1", "cpu", ">", 50, "critical",
          [⟨"a1", .succeeded⟩, ⟨"a2", .raised⟩], true, 300, fun _ => none⟩
        "cpu" 75 "node1" "cl" ("cl" ++ "/" ++ "node1") 1000] := by
  obtain ⟨h1, -⟩ := c7_evaluate_metric
    ⟨[⟨"r1", "cpu", ">", 50, "critical",
        [⟨"a1", .succeeded⟩, ⟨"a2", .raised⟩], true, 300, fun _ => none⟩], []⟩
    "cpu" 75 "node1" "cl" 1000
  rw [h1, List.filter_cons,
    if_pos (show ruleFires
      ⟨"r1", "cpu", ">", 50, "critical",
        [⟨"a1", .succeeded⟩, ⟨"a2", .raised⟩], true, 300, fun _ => none⟩
      "cpu" 75 ("cl" ++ "/" ++ "node1") 1000 = true by decide)]
  rfl

/-! ## Claim C8 -/

/-- C8 (confirmed): alert action failure is isolated.  The action loop
invokes every configured action in order no matter what each call does —
return success, return failure, or raise (the exception is caught) — so in
`evaluate_metric` the invoked-action trace of each fired rule is all of the
rule's action ids; despite any action failure the fired rules are still
marked triggered, and the events are still appended to the history and
returned; no action exception propagates (the functions are total). -/
theorem c8_action_failure_isolation (mgr : AlertManager) (metric_name : String)
    (metric_value : ℚ) (node_name cluster_name : String) (now : ℚ) :
    (∀ (alert : AlertEvent) (acts : List AlertAction),
      runActions alert acts = acts.map AlertAction.id) ∧
    (mgr.evaluate_metric metric_name metric_value node_name cluster_name
        now).2.2 =
      (mgr.rules.filter (fun r => ruleFires r metric_name metric_value
        (cluster_name ++ "/" ++ node_name) now)).flatMap
        (fun r => r.actions.map AlertAction.id) ∧
    (mgr.evaluate_metric metric_name metric_value node_name cluster_name
        now).1.rules =
      mgr.rules.map (fun r =>
        if ruleFires r metric_name metric_value
            (cluster_name ++ "/" ++ node_name) now = true then
          r.mark_triggered (cluster_name ++ "/" ++ node_name) now
        else r) ∧
    (mgr.evaluate_metric metric_name metric_value node_name cluster_name
        now).1.alert_history =
      mgr.alert_history ++
        (mgr.evaluate_metric metric_name metric_value node_name cluster_name
          now).2.1 := by
  have hev := evalRules_spec metric_name metric_value node_name cluster_name
    (cluster_name ++ "/" ++ node_name) now mgr.rules
  refine ⟨runActions_ids, ?_, ?_, ?_⟩
  · simp only [AlertManager.evaluate_metric, hev]
  · simp only [AlertManager.evaluate_metric, hev]
  · simp only [AlertManager.evaluate_metric, hev]

/-- C8 witness: a fired rule whose first action raises still has its second
action invoked — the trace lists both action ids in order. -/
theorem c8_action_failure_isolation_witness :
    (AlertManager.evaluate_metric
        ⟨[⟨"r1", "cpu", ">", 50, "critical",
            [⟨"a1", .raised⟩, ⟨"a2", .succeeded⟩], true, 300, fun _ => none⟩], []⟩
        "cpu" 75 "node1" "cl" 1000).2.2 = ["a1", "a2"] := by
  obtain ⟨-, h2, -⟩ := c8_action_failure_isolation
    ⟨[⟨"r1", "cpu", ">", 50, "critical",
        [⟨"a1", .raised⟩, ⟨"a2", .succeeded⟩], true, 300, fun _ => none⟩], []⟩
    "cpu" 75 "node1" "cl" 1000
  rw [h2, List.filter_cons,
    if_pos (show ruleFires
      ⟨"r1", "cpu", ">", 50, "critical",
        [⟨"a1", .raised⟩, ⟨"a2", .succeeded⟩], true, 300, fun _ => none⟩
      "cpu" 75 ("cl" ++ "/" ++ "node1") 1000 = true by decide)]
  rfl

/-! ## Claim C10 -/

/-- C10 (confirmed): `get_alert_history limit` returns a suffix of the
history in append order without modifying it; for `0 < limit` it is the last
`min(limit, length)` events, and for `limit = 0` the slice `[-0:]` is the
whole history rather than the empty list. -/
theorem c10_get_alert_history (mgr : AlertManager) (limit : Nat) :
    (limit = 0 → mgr.get_alert_history limit = mgr.alert_history) ∧
    (0 < limit → mgr.get_alert_history limit =
      mgr.alert_history.drop (mgr.alert_history.length - limit)) ∧
    (0 < limit → (mgr.get_alert_history limit).length =
      min limit mgr.alert_history.length) ∧
    List.IsSuffix (mgr.get_alert_history limit) mgr.alert_history := by
  unfold AlertManager.get_alert_history pyTailSlice
  by_cases h : limit = 0
  · rw [if_pos h]
    exact ⟨fun _ => rfl,
      fun hl => absurd h (Nat.pos_iff_ne_zero.mp hl),
      fun hl => absurd h (Nat.pos_iff_ne_zero.mp hl),
      List.suffix_refl mgr.alert_history⟩
  · rw [if_neg h]
    refine ⟨fun h0 => absurd h0 h, fun _ => rfl, fun _ => ?_,
      List.drop_suffix _ _⟩
    rw [List.length_drop]
    omega

/-- C10 witness: on a three-event history, limit 0 returns all three events
and limit 2 returns the last two, in order. -/
theorem c10_get_alert_history_witness :
    AlertManager.get_alert_history
        ⟨[], [⟨"e1", "r", "m", "n", "c", 1, 1, ">", "s", 0, "msg"⟩,
              ⟨"e2", "r", "m", "n", "c", 2, 1, ">", "s", 0, "msg"⟩,
              ⟨"e3", "r", "m", "n", "c", 3, 1, ">", "s", 0, "msg"⟩]⟩ 0 =
      [⟨"e1", "r", "m", "n", "c", 1, 1, ">", "s", 0, "msg"⟩,
       ⟨"e2", "r", "m", "n", "c", 2, 1, ">", "s", 0, "msg"⟩,
       ⟨"e3", "r", "m", "n", "c", 3, 1, ">", "s", 0, "msg"⟩] ∧
    AlertManager.get_alert_history
        ⟨[], [⟨"e1", "r", "m", "n", "c", 1, 1, ">", "s", 0, "msg"⟩,
              ⟨"e2", "r", "m", "n", "c", 2, 1, ">", "s", 0, "msg"⟩,
              ⟨"e3", "r", "m", "n", "c", 3, 1, ">", "s", 0, "msg"⟩]⟩ 2 =
      [⟨"e2", "r", "m", "n", "c", 2, 1, ">", "s", 0, "msg"⟩,
       ⟨"e3", "r", "m", "n", "c", 3, 1, ">", "s", 0, "msg"⟩] := by
  obtain ⟨h0, -, -, -⟩ := c10_get_alert_history
    ⟨[], [⟨"e1", "r", "m", "n", "c", 1, 1, ">", "s", 0, "msg"⟩,
          ⟨"e2", "r", "m", "n", "c", 2, 1, ">", "s", 0, "msg"⟩,
          ⟨"e3", "r", "m", "n", "c", 3, 1, ">", "s", 0, "msg"⟩]⟩ 0
  obtain ⟨-, h2, -, -⟩ := c10_get_alert_history
    ⟨[], [⟨"e1", "r", "m", "n", "c", 1, 1, ">", "s", 0, "msg"⟩,
          ⟨"e2", "r", "m", "n", "c", 2, 1, ">", "s", 0, "msg"⟩,
          ⟨"e3", "r", "m", "n", "c", 3, 1, ">", "s", 0, "msg"⟩]⟩ 2
  refine ⟨h0 rfl, ?_⟩
  rw [h2 (by decide)]
  rfl

end HealthMonitor
